import Mathlib

/-!
Verification of the EKS resolver of the awsappsignals processor
(`plugins/processors/awsappsignals/internal/resolver/eks.go`).

Go strings are modelled as `List Char`; Go maps (`sync.Map`, `map[string]...`)
as association lists with in-place update, or as total functions with default
value where the Go code relies on the zero-value behaviour of `map[string]int`.
Deferred deletions (`Deleter.DeleteWithDelay`) never mutate a map at call time;
they are modelled as emitted `Sched` records naming the target map and key.
-/

namespace EKS

/-- A Go string, modelled as its list of characters. -/
abbrev Str := List Char

/-! ## Association-list maps (model of `sync.Map` with string keys) -/

/-- Lookup in an association list: first binding wins. -/
def mlookup {α : Type} : List (Str × α) → Str → Option α
  | [], _ => none
  | (k', v) :: rest, k => if k' = k then some v else mlookup rest k

/-- Store (`sync.Map.Store` / `pcommon.Map.PutStr`): update the existing
binding in place, or append a new binding at the end. -/
def mstore {α : Type} : List (Str × α) → Str → α → List (Str × α)
  | [], k, v => [(k, v)]
  | (k', v') :: rest, k, v =>
    if k' = k then (k, v) :: rest else (k', v') :: mstore rest k v

/-- Delete (`sync.Map.Delete`): remove every binding of the key. -/
def mdelete {α : Type} : List (Str × α) → Str → List (Str × α)
  | [], _ => []
  | (k', v) :: rest, k =>
    if k' = k then mdelete rest k else (k', v) :: mdelete rest k

theorem mlookup_mstore_self {α : Type} (m : List (Str × α)) (k : Str) (v : α) :
    mlookup (mstore m k v) k = some v := by
  induction m with
  | nil => simp [mstore, mlookup]
  | cons hd tl ih =>
    obtain ⟨k', v'⟩ := hd
    by_cases h : k' = k
    · simp [mstore, mlookup, h]
    · simp [mstore, mlookup, h, ih]

theorem mlookup_mstore_ne {α : Type} (m : List (Str × α)) (k k' : Str) (v : α)
    (h : k' ≠ k) : mlookup (mstore m k v) k' = mlookup m k' := by
  have h2 : ¬ (k = k') := Ne.symm h
  induction m with
  | nil => simp [mstore, mlookup, h2]
  | cons hd tl ih =>
    obtain ⟨k₀, v₀⟩ := hd
    by_cases h0 : k₀ = k
    · subst h0
      simp [mstore, mlookup, h2]
    · by_cases h1 : k₀ = k'
      · simp [mstore, mlookup, h0, h1, h]
      · simp [mstore, mlookup, h0, h1, ih]

theorem mstore_eq_of_lookup {α : Type} (m : List (Str × α)) (k : Str) (v : α)
    (h : mlookup m k = some v) : mstore m k v = m := by
  induction m with
  | nil => simp [mlookup] at h
  | cons hd tl ih =>
    obtain ⟨k₀, v₀⟩ := hd
    by_cases h0 : k₀ = k
    · subst h0
      simp [mlookup] at h
      simp [mstore, h]
    · simp [mlookup, h0] at h
      simp [mstore, h0, ih h]

theorem mstore_eq_append_of_lookup_none {α : Type} (m : List (Str × α)) (k : Str)
    (v : α) (h : mlookup m k = none) : mstore m k v = m ++ [(k, v)] := by
  induction m with
  | nil => simp [mstore]
  | cons hd tl ih =>
    obtain ⟨k₀, v₀⟩ := hd
    by_cases h0 : k₀ = k
    · simp [mlookup, h0] at h
    · simp [mlookup, h0] at h
      simp [mstore, h0, ih h]

theorem mlookup_mdelete_self {α : Type} (m : List (Str × α)) (k : Str) :
    mlookup (mdelete m k) k = none := by
  induction m with
  | nil => simp [mdelete, mlookup]
  | cons hd tl ih =>
    obtain ⟨k₀, v₀⟩ := hd
    by_cases h0 : k₀ = k
    · simp [mdelete, h0, ih]
    · simp [mdelete, mlookup, h0, ih]

theorem mlookup_mdelete_ne {α : Type} (m : List (Str × α)) (k k' : Str)
    (h : k' ≠ k) : mlookup (mdelete m k) k' = mlookup m k' := by
  have h2 : ¬ (k = k') := Ne.symm h
  induction m with
  | nil => simp [mdelete]
  | cons hd tl ih =>
    obtain ⟨k₀, v₀⟩ := hd
    by_cases h0 : k₀ = k
    · subst h0
      simp [mdelete, mlookup, h2, ih]
    · by_cases h1 : k₀ = k'
      · simp [mdelete, mlookup, h0, h1, h]
      · simp [mdelete, mlookup, h0, h1, ih]

/-! ## Namespaced names (`attachNamespace` / `extractResourceAndNamespace`) -/

/-- Model of `attachNamespace`: the separator `@` cannot appear in
kubernetes resource names. -/
def attachNamespace (resourceName namespace' : Str) : Str :=
  resourceName ++ '@' :: namespace'

/-- Model of Go `strings.Split` with a one-character separator: splits at
every occurrence; `n` separators yield `n+1` parts. -/
def splitSep (sep : Char) : Str → List Str
  | [] => [[]]
  | c :: rest =>
    match splitSep sep rest with
    | [] => [[]]
    | s :: ss => if c = sep then [] :: s :: ss else (c :: s) :: ss

theorem splitSep_ne_nil (sep : Char) (s : Str) : splitSep sep s ≠ [] := by
  cases s with
  | nil => simp [splitSep]
  | cons c rest =>
    simp only [splitSep]
    cases splitSep sep rest with
    | nil => simp
    | cons s ss =>
      by_cases h : c = sep <;> simp [h]

theorem splitSep_length (sep : Char) (s : Str) :
    (splitSep sep s).length = s.count sep + 1 := by
  induction s with
  | nil => simp [splitSep]
  | cons c rest ih =>
    simp only [splitSep]
    rcases h : splitSep sep rest with _ | ⟨p, ps⟩
    · exact absurd h (splitSep_ne_nil sep rest)
    · rw [h] at ih
      by_cases hc : c = sep
      · subst hc
        simp at ih
        simp [List.count_cons, ih]
      · have hb : (c == sep) = false := by simp [hc]
        simp at ih
        simp [List.count_cons, hc, hb, ih]

/-- Model of `extractResourceAndNamespace`: split on `@`; any split that does
not have exactly two parts yields the pair of empty strings. -/
def extractResourceAndNamespace (serviceOrWorkloadAndNamespace : Str) : Str × Str :=
  match splitSep '@' serviceOrWorkloadAndNamespace with
  | [a, b] => (a, b)
  | _ => ([], [])

theorem splitSep_not_mem (sep : Char) (s : Str) (h : sep ∉ s) :
    splitSep sep s = [s] := by
  induction s with
  | nil => simp [splitSep]
  | cons c rest ih =>
    simp at h
    obtain ⟨h1, h2⟩ := h
    have h1' : ¬ (c = sep) := fun hh => h1 hh.symm
    simp only [splitSep, ih h2]
    simp [h1']

theorem splitSep_attach (n ns : Str) (hn : '@' ∉ n) (hns : '@' ∉ ns) :
    splitSep '@' (attachNamespace n ns) = [n, ns] := by
  unfold attachNamespace
  induction n with
  | nil => simp [splitSep, splitSep_not_mem '@' ns hns]
  | cons c rest ih =>
    simp at hn
    obtain ⟨h1, h2⟩ := hn
    have h1' : ¬ (c = '@') := fun hh => h1 hh.symm
    simp only [List.cons_append, splitSep, List.append_eq]
    rw [ih h2]
    simp [h1']

/-- C10: round trip.  For names free of `@`, extraction inverts attachment;
any string whose number of `@` separators differs from one splits to the
pair of empty strings. -/
theorem extractResourceAndNamespace_spec :
    (∀ n ns : Str, '@' ∉ n → '@' ∉ ns →
      extractResourceAndNamespace (attachNamespace n ns) = (n, ns)) ∧
    (∀ s : Str, s.count '@' ≠ 1 →
      extractResourceAndNamespace s = ([], [])) := by
  constructor
  · intro n ns hn hns
    simp [extractResourceAndNamespace, splitSep_attach n ns hn hns]
  · intro s h
    have hlen : (splitSep '@' s).length ≠ 2 := by
      rw [splitSep_length]
      omega
    unfold extractResourceAndNamespace
    rcases hsplit : splitSep '@' s with _ | ⟨a, _ | ⟨b, _ | _⟩⟩ <;>
      simp_all

/-! ## Workload-name extraction (the two anchored regular expressions) -/

/-- The characters allowed in replicaset names from a parent deployment
(`kubeAllowedStringAlphaNums`). -/
def kubeAllowedStringAlphaNums : Str := ("bcdfghjklmnpqrstvwxz2456789").toList

/-- Semantics of the anchored pattern `^(.+)-[kubeAllowedStringAlphaNums]{k}$`
used by `extractWorkloadNameFromRS` (k = 10) and
`extractWorkloadNameFromPodName` (k = 5).  A string matches exactly when its
last `k` characters are all drawn from the restricted alphabet, the character
before them is a dash, and at least one character precedes that dash; the
captured group is then uniquely determined as everything before the dash, so
greediness plays no role. -/
def kubeSuffixMatch (k : Nat) (name : Str) : Option Str :=
  if k + 2 ≤ name.length ∧ name.get? (name.length - (k + 1)) = some '-' ∧
      (name.drop (name.length - k)).all
        (fun c => kubeAllowedStringAlphaNums.contains c) = true then
    some (name.take (name.length - (k + 1)))
  else none

/-- Model of `extractWorkloadNameFromRS` (deployment name from replicaset
name); the misspelling in the error message is the source's. -/
def extractWorkloadNameFromRS (replicaSetName : Str) : Except Str Str :=
  match kubeSuffixMatch 10 replicaSetName with
  | some m => Except.ok m
  | none =>
    Except.error
      (("failed to extract workload name from replicatSet name: ").toList
        ++ replicaSetName)

/-- Model of `extractWorkloadNameFromPodName` (replicaset name from pod
name). -/
def extractWorkloadNameFromPodName (podName : Str) : Except Str Str :=
  match kubeSuffixMatch 5 podName with
  | some m => Except.ok m
  | none =>
    Except.error
      (("failed to extract workload name from pod name: ").toList ++ podName)

theorem kubeSuffixMatch_ok (k : Nat) (p s : Str) (hp : p ≠ [])
    (hs : s.length = k) (hall : ∀ c ∈ s, c ∈ kubeAllowedStringAlphaNums) :
    kubeSuffixMatch k (p ++ '-' :: s) = some p := by
  have hplen : 1 ≤ p.length := by
    cases p with
    | nil => exact absurd rfl hp
    | cons a b => simp
  have hlen : (p ++ '-' :: s).length = p.length + (k + 1) := by
    simp only [List.length_append, List.length_cons, hs]
  have hsub1 : (p ++ '-' :: s).length - (k + 1) = p.length := by omega
  have hsub2 : (p ++ '-' :: s).length - k = p.length + 1 := by omega
  have hget : (p ++ '-' :: s).get? ((p ++ '-' :: s).length - (k + 1))
      = some '-' := by
    rw [hsub1, List.get?_append_right (le_refl p.length)]
    simp
  have hdrop : (p ++ '-' :: s).drop ((p ++ '-' :: s).length - k) = s := by
    rw [hsub2]
    have : p ++ '-' :: s = (p ++ ['-']) ++ s := by simp
    rw [this]
    have hl : (p ++ ['-']).length = p.length + 1 := by simp
    rw [← hl, List.drop_left]
  have htake : (p ++ '-' :: s).take ((p ++ '-' :: s).length - (k + 1)) = p := by
    rw [hsub1, List.take_left]
  have hallb : ((p ++ '-' :: s).drop ((p ++ '-' :: s).length - k)).all
      (fun c => kubeAllowedStringAlphaNums.contains c) = true := by
    rw [hdrop, List.all_eq_true]
    intro c hc
    exact List.elem_eq_true_of_mem (hall c hc)
  unfold kubeSuffixMatch
  rw [if_pos ⟨by omega, hget, hallb⟩, htake]

theorem kubeSuffixMatch_none (k : Nat) (name : Str)
    (h : ¬ ((name.drop (name.length - k)).all
        (fun c => kubeAllowedStringAlphaNums.contains c) = true ∧
      name.get? (name.length - (k + 1)) = some '-')) :
    kubeSuffixMatch k name = none := by
  unfold kubeSuffixMatch
  rw [if_neg]
  intro hcond
  exact h ⟨hcond.2.2, hcond.2.1⟩

/-- C7: parse round trip for replicaset names.  Attaching a dash and any
10-character suffix drawn from the restricted alphabet to a non-empty prefix
extracts exactly that prefix; every name whose last 10 characters are not all
drawn from the alphabet, or that has no dash in front of them, fails to
extract. -/
theorem extractWorkloadNameFromRS_spec :
    (∀ p s : Str, p ≠ [] → s.length = 10 →
      (∀ c ∈ s, c ∈ kubeAllowedStringAlphaNums) →
      extractWorkloadNameFromRS (p ++ '-' :: s) = Except.ok p) ∧
    (∀ name : Str,
      ¬ ((name.drop (name.length - 10)).all
            (fun c => kubeAllowedStringAlphaNums.contains c) = true ∧
         name.get? (name.length - 11) = some '-') →
      extractWorkloadNameFromRS name =
        Except.error
          (("failed to extract workload name from replicatSet name: ").toList
            ++ name)) := by
  constructor
  · intro p s hp hs hall
    unfold extractWorkloadNameFromRS
    rw [kubeSuffixMatch_ok 10 p s hp hs hall]
  · intro name h
    unfold extractWorkloadNameFromRS
    rw [kubeSuffixMatch_none 10 name h]

/-- Closed instance of the C7 theorem at concrete inputs. -/
theorem extractWorkloadNameFromRS_spec_witness :
    extractWorkloadNameFromRS (("cart").toList ++ '-' :: ("6d9f7c4b8z").toList)
        = Except.ok (("cart").toList) ∧
    extractWorkloadNameFromRS (("cart-abcde12345").toList) =
      Except.error
        (("failed to extract workload name from replicatSet name: ").toList
          ++ ("cart-abcde12345").toList) := by
  constructor
  · exact extractWorkloadNameFromRS_spec.1 ("cart").toList ("6d9f7c4b8z").toList
      (by decide) (by decide) (by decide)
  · exact extractWorkloadNameFromRS_spec.2 ("cart-abcde12345").toList (by decide)

/-- Closed instance of the C10 theorem at concrete inputs. -/
theorem extractResourceAndNamespace_spec_witness :
    extractResourceAndNamespace (attachNamespace ("cart").toList ("shop").toList)
        = (("cart").toList, ("shop").toList) ∧
    extractResourceAndNamespace ("a@b@c").toList = ([], []) := by
  constructor
  · exact extractResourceAndNamespace_spec.1 ("cart").toList ("shop").toList
      (by decide) (by decide)
  · exact extractResourceAndNamespace_spec.2 ("a@b@c").toList (by decide)

/-! ## Kubernetes object model (the fields the resolver reads) -/

/-- One `ownerReferences` entry of a pod: only `Kind` and `Name` are read. -/
structure OwnerReference where
  kind : Str
  name : Str
deriving DecidableEq

/-- A container port declaration: only `HostPort` is read (an `int32` in the
source, compared against 0 and printed with `strconv.Itoa`). -/
structure ContainerPort where
  hostPort : Int
deriving DecidableEq

/-- A container: only its port declarations are read. -/
structure Container where
  ports : List ContainerPort
deriving DecidableEq

/-- A pod, restricted to the fields the resolver reads: metadata name,
namespace, labels and owner references, `spec.hostNetwork`,
`spec.containers`, `status.podIP` and `status.hostIP`. -/
structure Pod where
  name : Str
  nameSpace : Str
  labels : List (Str × Str)
  ownerReferences : List OwnerReference
  hostNetwork : Bool
  containers : List Container
  podIP : Str
  hostIP : Str
deriving DecidableEq

/-- Model of `strconv.Itoa` on the `int` obtained from an `int32`. -/
def itoa (n : Int) : Str := (toString n).toList

/-- Model of `getHostNetworkPorts`: the declared non-zero container host
ports of a host-network pod, rendered in decimal; empty for a pod that is
not on the host network. -/
def getHostNetworkPorts (pod : Pod) : List Str :=
  if !pod.hostNetwork then []
  else
    (pod.containers.map
      (fun c => (c.ports.filter (fun p => p.hostPort ≠ 0)).map
        (fun p => itoa p.hostPort))).flatten

/-- Model of the owner-reference dispatch inside `getWorkloadAndNamespace`:
the workload contributed by a single owner reference (empty when the owner
yields nothing). -/
def workloadFromOwnerRef (pod : Pod) (ref : OwnerReference) : Str :=
  if ref.kind = ("ReplicaSet").toList then
    match extractWorkloadNameFromRS ref.name with
    | Except.ok workloadName => attachNamespace workloadName pod.nameSpace
    | Except.error _ =>
      match extractWorkloadNameFromPodName pod.name with
      | Except.ok workloadName => attachNamespace workloadName pod.nameSpace
      | Except.error _ => []
  else if ref.kind = ("StatefulSet").toList then
    attachNamespace ref.name pod.nameSpace
  else if ref.kind = ("DaemonSet").toList then
    attachNamespace ref.name pod.nameSpace
  else []

/-- The loop of `getWorkloadAndNamespace`: successive owner references are
consulted until one yields a non-empty workload. -/
def getWorkloadAndNamespaceLoop (pod : Pod) : List OwnerReference → Str
  | [] => []
  | ref :: rest =>
    let w := workloadFromOwnerRef pod ref
    if w = [] then getWorkloadAndNamespaceLoop pod rest else w

/-- Model of `getWorkloadAndNamespace`. -/
def getWorkloadAndNamespace (pod : Pod) : Str :=
  getWorkloadAndNamespaceLoop pod pod.ownerReferences

/-! ## Deferred deletion

`TimedDeleter.DeleteWithDelay` returns immediately and removes the key only
after the fixed delay, so at handler time no map changes; a handler's calls
to the deleter are modelled as emitted `Sched` records. -/

/-- Names of the shared indexes a deferred deletion can target. -/
inductive MapId
  | ipToPod
  | podToWorkloadAndNamespace
  | workloadAndNamespaceToLabels
  | ipToServiceAndNamespace
  | serviceAndNamespaceToSelectors
  | serviceToWorkload
deriving DecidableEq

/-- One scheduled deferred deletion: which map, which key. -/
structure Sched where
  mapId : MapId
  key : Str
deriving DecidableEq

/-! ## Pod watcher -/

/-- The state owned by the pod watcher. `workloadPodCount` is a Go
`map[string]int`, modelled as a total function with default 0, which is
exactly the zero-value behaviour its `++`/`--` uses rely on. -/
structure PodState where
  ipToPod : List (Str × Str)
  podToWorkloadAndNamespace : List (Str × Str)
  workloadAndNamespaceToLabels : List (Str × List Str)
  workloadPodCount : Str → Int

def emptyPodState : PodState :=
  { ipToPod := []
    podToWorkloadAndNamespace := []
    workloadAndNamespaceToLabels := []
    workloadPodCount := fun _ => 0 }

/-- Model of `handlePodAdd`. -/
def handlePodAdd (pod : Pod) (ipToPod : List (Str × Str)) : List (Str × Str) :=
  if pod.hostNetwork then
    (getHostNetworkPorts pod).foldl
      (fun m port => mstore m (pod.hostIP ++ ':' :: port) pod.name) ipToPod
  else if pod.podIP ≠ [] then
    mstore ipToPod pod.podIP pod.name
  else ipToPod

/-- Model of `removeHostNetworkRecords`: only schedules deletions. -/
def removeHostNetworkRecords (pod : Pod) : List Sched :=
  (getHostNetworkPorts pod).map
    (fun port => Sched.mk MapId.ipToPod (pod.hostIP ++ ':' :: port))

/-- Model of `updateHostNetworkRecords`.  The Go code materialises the old
and new `HostIP:Port` endpoint sets as `map[string]bool` and walks them; the
sets are modelled as deduplicated lists (iteration order of a Go map is
unspecified, but the scheduled deletions and stores are at pairwise distinct
keys, so the resulting map does not depend on it). -/
def updateHostNetworkRecords (newPod oldPod : Pod)
    (ipToPod : List (Str × Str)) : List (Str × Str) × List Sched :=
  let newKeys :=
    ((getHostNetworkPorts newPod).map
      (fun port => newPod.hostIP ++ ':' :: port)).dedup
  let oldKeys :=
    ((getHostNetworkPorts oldPod).map
      (fun port => oldPod.hostIP ++ ':' :: port)).dedup
  let scheds := (oldKeys.filter (fun k => k ∉ newKeys)).map
    (fun k => Sched.mk MapId.ipToPod k)
  let m := (newKeys.filter (fun k => k ∉ oldKeys)).foldl
    (fun m k => mstore m k newPod.name) ipToPod
  (m, scheds)

/-- Model of `handlePodUpdate` (the 2x2 host-network matrix). -/
def handlePodUpdate (newPod oldPod : Pod)
    (ipToPod : List (Str × Str)) : List (Str × Str) × List Sched :=
  if oldPod.hostNetwork ∧ newPod.hostNetwork then
    updateHostNetworkRecords newPod oldPod ipToPod
  else if oldPod.hostNetwork ∧ ¬ newPod.hostNetwork then
    let scheds := removeHostNetworkRecords oldPod
    if newPod.podIP ≠ [] then
      (mstore ipToPod newPod.podIP newPod.name, scheds)
    else (ipToPod, scheds)
  else if ¬ oldPod.hostNetwork ∧ newPod.hostNetwork then
    let scheds :=
      if oldPod.podIP ≠ [] then [Sched.mk MapId.ipToPod oldPod.podIP] else []
    ((getHostNetworkPorts newPod).foldl
      (fun m port => mstore m (newPod.hostIP ++ ':' :: port) newPod.name)
      ipToPod, scheds)
  else if ¬ oldPod.hostNetwork ∧ ¬ newPod.hostNetwork ∧
      oldPod.podIP ≠ newPod.podIP then
    let scheds :=
      if oldPod.podIP ≠ [] then [Sched.mk MapId.ipToPod oldPod.podIP] else []
    (if newPod.podIP ≠ [] then mstore ipToPod newPod.podIP newPod.name
     else ipToPod, scheds)
  else (ipToPod, [])

/-- The `key=value` label set a pod contributes (`mapset.NewSet` over
`pod.ObjectMeta.Labels`). -/
def labelStrings (labels : List (Str × Str)) : List Str :=
  labels.map (fun kv => kv.1 ++ '=' :: kv.2)

/-- Model of `onAddOrUpdatePod`.  `oldPod` is read only when `isAdd` is
false (the source passes `nil` on the add path). -/
def onAddOrUpdatePod (newPod oldPod : Pod) (st : PodState) (isAdd : Bool) :
    PodState × List Sched :=
  let ipres :=
    if isAdd then (handlePodAdd newPod st.ipToPod, ([] : List Sched))
    else handlePodUpdate newPod oldPod st.ipToPod
  let workloadAndNamespace := getWorkloadAndNamespace newPod
  if workloadAndNamespace ≠ [] then
    let podLabels := labelStrings newPod.labels
    ({ ipToPod := ipres.1
       podToWorkloadAndNamespace :=
         mstore st.podToWorkloadAndNamespace newPod.name workloadAndNamespace
       workloadAndNamespaceToLabels :=
         if podLabels ≠ [] then
           mstore st.workloadAndNamespaceToLabels workloadAndNamespace podLabels
         else st.workloadAndNamespaceToLabels
       workloadPodCount :=
         if isAdd then
           fun w => if w = workloadAndNamespace then st.workloadPodCount w + 1
             else st.workloadPodCount w
         else st.workloadPodCount }, ipres.2)
  else
    ({ st with ipToPod := ipres.1 }, ipres.2)

/-- The endpoint deletions scheduled by `onDeletePod` (its first if/else-if
block): the bare `PodIP` when non-empty, else the `HostIP:Port` endpoints
when `HostIP` is non-empty. -/
def deletePodIPScheds (pod : Pod) : List Sched :=
  if pod.podIP ≠ [] then [Sched.mk MapId.ipToPod pod.podIP]
  else if pod.hostIP ≠ [] then
    (getHostNetworkPorts pod).map
      (fun port => Sched.mk MapId.ipToPod (pod.hostIP ++ ':' :: port))
  else []

/-- Model of `onDeletePod`. -/
def onDeletePod (pod : Pod) (st : PodState) : PodState × List Sched :=
  let ipScheds : List Sched := deletePodIPScheds pod
  match mlookup st.podToWorkloadAndNamespace pod.name with
  | some workloadAndNamespace =>
    let newCount : Str → Int :=
      fun w => if w = workloadAndNamespace then st.workloadPodCount w - 1
        else st.workloadPodCount w
    let labelScheds :=
      if newCount workloadAndNamespace = 0 then
        [Sched.mk MapId.workloadAndNamespaceToLabels workloadAndNamespace]
      else []
    ({ st with workloadPodCount := newCount },
      ipScheds ++ labelScheds
        ++ [Sched.mk MapId.podToWorkloadAndNamespace pod.name])
  | none =>
    (st, ipScheds ++ [Sched.mk MapId.podToWorkloadAndNamespace pod.name])

/-- The three pod event kinds delivered by the informer. -/
inductive PodEvent
  | add (pod : Pod)
  | update (oldPod newPod : Pod)
  | delete (pod : Pod)
deriving DecidableEq

/-- Dispatch of one pod event to its handler, as wired in `PodWatcher.Run`
(`oldObj` is `nil` on the add path and unused there). -/
def podStep (st : PodState) : PodEvent → PodState × List Sched
  | PodEvent.add pod => onAddOrUpdatePod pod pod st true
  | PodEvent.update oldPod newPod => onAddOrUpdatePod newPod oldPod st false
  | PodEvent.delete pod => onDeletePod pod st

/-- Run a sequence of pod events from a given state. -/
def podRunFrom (st : PodState) (events : List PodEvent) : PodState :=
  events.foldl (fun s e => (podStep s e).1) st

/-- Run a sequence of pod events from the freshly initialised watcher
state. -/
def podRun (events : List PodEvent) : PodState :=
  podRunFrom emptyPodState events

/-! ## C4: what `onDeletePod` schedules -/

/-- A host-network pod whose `status.podIP` is populated (as it always is for
a running host-network pod, where it equals `status.hostIP`). -/
def c4pod : Pod :=
  { name := ("hn-pod").toList
    nameSpace := ("default").toList
    labels := []
    ownerReferences := []
    hostNetwork := true
    containers := [Container.mk [ContainerPort.mk 8080]]
    podIP := ("10.0.0.5").toList
    hostIP := ("10.0.0.5").toList }

/-- The endpoint that `handlePodAdd` stores for `c4pod`. -/
def c4hostEndpoint : Str := ("10.0.0.5:8080").toList

/-- C4 counterexample: deleting a host-network pod whose `PodIP` is non-empty
does not schedule deletion of its stored `HostIP:Port` endpoint (the handler
branches on `PodIP` first and only schedules the bare `PodIP`), contradicting
the claim that every endpoint of the pod is scheduled for deletion. -/
theorem onDeletePod_cex :
    mlookup ((podStep emptyPodState (PodEvent.add c4pod)).1).ipToPod
        c4hostEndpoint = some c4pod.name ∧
    Sched.mk MapId.ipToPod c4hostEndpoint ∉
      (onDeletePod c4pod (podStep emptyPodState (PodEvent.add c4pod)).1).2 := by
  decide

/-- C4 amended: `onDeletePod` schedules deletion of the bare `PodIP` when
`status.podIP` is non-empty; only when `PodIP` is empty and `HostIP` is
non-empty does it schedule deletion of every `HostIP:Port` endpoint.  When the
pod is present in `podToWorkloadAndNamespace` it decrements the workload's pod
count, schedules deletion of `workloadAndNamespaceToLabels[workload]` exactly
when the count reaches 0, and otherwise leaves the state unchanged; deletion
of `podToWorkloadAndNamespace[pod.Name]` is always scheduled. -/
theorem onDeletePod_spec (pod : Pod) (st : PodState) :
    (pod.podIP ≠ [] →
      Sched.mk MapId.ipToPod pod.podIP ∈ (onDeletePod pod st).2) ∧
    (pod.podIP = [] → pod.hostIP ≠ [] →
      ∀ port ∈ getHostNetworkPorts pod,
        Sched.mk MapId.ipToPod (pod.hostIP ++ ':' :: port)
          ∈ (onDeletePod pod st).2) ∧
    (∀ wn, mlookup st.podToWorkloadAndNamespace pod.name = some wn →
      (onDeletePod pod st).1.workloadPodCount wn = st.workloadPodCount wn - 1 ∧
      (st.workloadPodCount wn - 1 = 0 →
        Sched.mk MapId.workloadAndNamespaceToLabels wn ∈ (onDeletePod pod st).2) ∧
      (st.workloadPodCount wn - 1 ≠ 0 →
        Sched.mk MapId.workloadAndNamespaceToLabels wn ∉ (onDeletePod pod st).2)) ∧
    (mlookup st.podToWorkloadAndNamespace pod.name = none →
      (onDeletePod pod st).1 = st) ∧
    Sched.mk MapId.podToWorkloadAndNamespace pod.name ∈ (onDeletePod pod st).2 := by
  have hipmem : pod.podIP ≠ [] →
      Sched.mk MapId.ipToPod pod.podIP ∈ deletePodIPScheds pod := by
    intro hip
    unfold deletePodIPScheds
    rw [if_pos hip]
    simp
  have hhostmem : pod.podIP = [] → pod.hostIP ≠ [] →
      ∀ port ∈ getHostNetworkPorts pod,
        Sched.mk MapId.ipToPod (pod.hostIP ++ ':' :: port)
          ∈ deletePodIPScheds pod := by
    intro hip hhost port hport
    unfold deletePodIPScheds
    rw [if_neg (not_not_intro hip), if_pos hhost]
    exact List.mem_map.mpr ⟨port, hport, rfl⟩
  have hipid : ∀ t ∈ deletePodIPScheds pod, t.mapId = MapId.ipToPod := by
    intro t ht
    unfold deletePodIPScheds at ht
    split at ht
    · simp at ht
      rw [ht]
    · split at ht
      · rcases List.mem_map.mp ht with ⟨q, _, hq⟩
        rw [← hq]
      · simp at ht
  unfold onDeletePod
  rcases hlk : mlookup st.podToWorkloadAndNamespace pod.name with _ | wn₀
  · refine ⟨?_, ?_, ?_, ?_, ?_⟩
    · intro hip
      exact List.mem_append_left _ (hipmem hip)
    · intro hip hhost port hport
      exact List.mem_append_left _ (hhostmem hip hhost port hport)
    · intro wn hwn
      exact Option.noConfusion hwn
    · intro _
      rfl
    · simp
  · refine ⟨?_, ?_, ?_, ?_, ?_⟩
    · intro hip
      exact List.mem_append_left _ (List.mem_append_left _ (hipmem hip))
    · intro hip hhost port hport
      exact List.mem_append_left _
        (List.mem_append_left _ (hhostmem hip hhost port hport))
    · intro wn hwn
      have hwn0 : wn₀ = wn := Option.some.inj hwn
      subst hwn0
      refine ⟨by simp, ?_, ?_⟩
      · intro hz
        have hz' : (if wn₀ = wn₀ then st.workloadPodCount wn₀ - 1
            else st.workloadPodCount wn₀) = 0 := by
          rw [if_pos rfl]
          exact hz
        simp only [hz', if_pos rfl]
        simp [hz]
      · intro hz
        have hz' : ¬ ((if wn₀ = wn₀ then st.workloadPodCount wn₀ - 1
            else st.workloadPodCount wn₀) = 0) := by
          rw [if_pos rfl]
          exact hz
        intro hmem
        simp only [if_neg hz'] at hmem
        rcases List.mem_append.mp hmem with hmem1 | hmem2
        · rcases List.mem_append.mp hmem1 with hmem3 | hmem4
          · have := hipid _ hmem3
            simp at this
          · simp at hmem4
            exact hz hmem4
        · simp at hmem2
    · intro hnone
      exact Option.noConfusion hnone
    · simp

/-- Witness for the C4 amended theorem: a concrete pod-network pod whose
workload is known, at the state reached after its add event. -/
def c4podNet : Pod :=
  { name := ("db-0").toList
    nameSpace := ("prod").toList
    labels := [(("app").toList, ("db").toList)]
    ownerReferences := [OwnerReference.mk (("StatefulSet").toList) (("db").toList)]
    hostNetwork := false
    containers := []
    podIP := ("10.3.0.2").toList
    hostIP := [] }

/-- Closed instance of the C4 amended theorem at a concrete pod and state. -/
theorem onDeletePod_spec_witness :
    Sched.mk MapId.ipToPod c4podNet.podIP ∈
      (onDeletePod c4podNet (podStep emptyPodState (PodEvent.add c4podNet)).1).2 ∧
    (onDeletePod c4podNet
        (podStep emptyPodState (PodEvent.add c4podNet)).1).1.workloadPodCount
      (attachNamespace (("db").toList) (("prod").toList)) = 0 ∧
    Sched.mk MapId.workloadAndNamespaceToLabels
        (attachNamespace (("db").toList) (("prod").toList)) ∈
      (onDeletePod c4podNet (podStep emptyPodState (PodEvent.add c4podNet)).1).2 := by
  have h := onDeletePod_spec c4podNet (podStep emptyPodState (PodEvent.add c4podNet)).1
  refine ⟨h.1 (by decide), ?_, ?_⟩
  · have hc := (h.2.2.1 (attachNamespace (("db").toList) (("prod").toList))
      (by decide)).1
    rw [hc]
    decide
  · exact (h.2.2.1 (attachNamespace (("db").toList) (("prod").toList))
      (by decide)).2.1 (by decide)

/-! ## C6: soundness of `workloadPodCount` -/

/-- Number of live pods whose derived workload is `w`, as an integer (the
type of the Go counter). -/
def countVal (live : List (Str × Str)) (w : Str) : Int :=
  ((live.filter (fun p => p.2 == w)).length : Int)

/-- The ghost map of currently-live pods: pod name to the derived workload
recorded at its add event (updates of a well-formed history do not change
it, deletes remove it). -/
def liveFold (live : List (Str × Str)) : List PodEvent → List (Str × Str)
  | [] => live
  | PodEvent.add pod :: rest =>
    liveFold (mstore live pod.name (getWorkloadAndNamespace pod)) rest
  | PodEvent.update _ _ :: rest => liveFold live rest
  | PodEvent.delete pod :: rest => liveFold (mdelete live pod.name) rest

/-- Well-formed pod event histories: every add uses a globally fresh pod
name, every update targets a live pod and preserves its name and derived
workload, and every delete targets a live pod with a payload deriving the
recorded workload.  `used` collects every name ever added; `live` is the
ghost map of `liveFold`. -/
def wfPod (used : List Str) (live : List (Str × Str)) : List PodEvent → Prop
  | [] => True
  | PodEvent.add pod :: rest =>
    pod.name ∉ used ∧
      wfPod (pod.name :: used)
        (mstore live pod.name (getWorkloadAndNamespace pod)) rest
  | PodEvent.update oldPod newPod :: rest =>
    newPod.name = oldPod.name ∧
      mlookup live newPod.name = some (getWorkloadAndNamespace newPod) ∧
      wfPod used live rest
  | PodEvent.delete pod :: rest =>
    mlookup live pod.name = some (getWorkloadAndNamespace pod) ∧
      wfPod used (mdelete live pod.name) rest

theorem mlookup_eq_none_iff {α : Type} (m : List (Str × α)) (k : Str) :
    mlookup m k = none ↔ k ∉ m.map Prod.fst := by
  induction m with
  | nil =>
    constructor
    · intro _ hmem
      exact absurd hmem (List.not_mem_nil k)
    · intro _
      rfl
  | cons hd tl ih =>
    obtain ⟨k₀, v₀⟩ := hd
    rw [List.map_cons]
    by_cases h0 : k₀ = k
    · subst h0
      rw [mlookup, if_pos rfl]
      constructor
      · intro hctr
        exact Option.noConfusion hctr
      · intro hmem
        exact absurd (List.mem_cons_self _ _) hmem
    · rw [mlookup, if_neg h0]
      constructor
      · intro h hmem
        rcases List.mem_cons.mp hmem with h1 | h2
        · exact h0 h1.symm
        · exact (ih.mp h) h2
      · intro h
        exact ih.mpr (fun h2 => h (List.mem_cons_of_mem _ h2))

theorem mdelete_eq_of_not_mem {α : Type} (m : List (Str × α)) (k : Str)
    (h : k ∉ m.map Prod.fst) : mdelete m k = m := by
  induction m with
  | nil => rfl
  | cons hd tl ih =>
    obtain ⟨k₀, v₀⟩ := hd
    rw [List.map_cons] at h
    have h1 : ¬ (k₀ = k) := by
      intro hh
      exact h (by rw [← hh]; exact List.mem_cons_self _ _)
    have h2 : k ∉ tl.map Prod.fst := fun hm => h (List.mem_cons_of_mem _ hm)
    rw [mdelete, if_neg h1, ih h2]

theorem mdelete_sublist {α : Type} (m : List (Str × α)) (k : Str) :
    (mdelete m k).Sublist m := by
  induction m with
  | nil => exact List.Sublist.refl _
  | cons hd tl ih =>
    obtain ⟨k₀, v₀⟩ := hd
    by_cases h0 : k₀ = k
    · rw [mdelete, if_pos h0]
      exact ih.trans (List.sublist_cons_self _ _)
    · rw [mdelete, if_neg h0]
      exact ih.cons₂ _

theorem countVal_mstore_of_none (live : List (Str × Str)) (k d w : Str)
    (h : mlookup live k = none) :
    countVal (mstore live k d) w
      = countVal live w + (if d = w then 1 else 0) := by
  rw [mstore_eq_append_of_lookup_none _ _ _ h]
  unfold countVal
  rw [List.filter_append]
  by_cases hd : d = w
  · simp [hd]
  · have hb : (d == w) = false := by simp [hd]
    simp [hd, hb]

theorem countVal_mdelete (live : List (Str × Str)) (k d w : Str)
    (hnd : (live.map Prod.fst).Nodup) (h : mlookup live k = some d) :
    countVal (mdelete live k) w
      = countVal live w - (if d = w then 1 else 0) := by
  induction live with
  | nil => simp [mlookup] at h
  | cons hd tl ih =>
    obtain ⟨k₀, v₀⟩ := hd
    simp at hnd
    obtain ⟨hnm, hnd'⟩ := hnd
    by_cases h0 : k₀ = k
    · subst h0
      rw [mlookup, if_pos rfl] at h
      have hvd : v₀ = d := Option.some.inj h
      subst hvd
      rw [mdelete, if_pos rfl,
        mdelete_eq_of_not_mem tl k₀ (by simpa using hnm)]
      unfold countVal
      rw [List.filter_cons]
      by_cases hdw : v₀ = w
      · have hb : (v₀ == w) = true := by simp [hdw]
        simp only [hb, if_true, List.length_cons, if_pos hdw]
        push_cast
        omega
      · have hb : (v₀ == w) = false := by simp [hdw]
        simp only [hb, Bool.false_eq_true, if_false, if_neg hdw]
        omega
    · rw [mlookup, if_neg h0] at h
      rw [mdelete, if_neg h0]
      have hrec := ih hnd' h
      unfold countVal at hrec ⊢
      rw [List.filter_cons, List.filter_cons]
      by_cases hv : (v₀ == w) = true
      · simp only [hv, if_true, List.length_cons]
        push_cast
        omega
      · have hb : (v₀ == w) = false := by
          cases hbe : (v₀ == w) with
          | true => exact absurd hbe hv
          | false => rfl
        simp only [hb, Bool.false_eq_true, if_false]
        omega

/-- The simulation invariant between a pod watcher state and the ghost
history state: `podToWorkloadAndNamespace` records exactly the derived
workloads of pods that were ever added (restricted here to what the proof
needs), and `workloadPodCount` counts the live pods per workload. -/
structure PodInv (used : List Str) (live : List (Str × Str))
    (st : PodState) : Prop where
  ptwLive : ∀ name d, mlookup live name = some d →
    mlookup st.podToWorkloadAndNamespace name
      = if d = [] then none else some d
  ptwUsed : ∀ name,
    mlookup st.podToWorkloadAndNamespace name ≠ none → name ∈ used
  countEq : ∀ w, w ≠ [] → st.workloadPodCount w = countVal live w
  liveNodup : (live.map Prod.fst).Nodup
  liveUsed : ∀ name, mlookup live name ≠ none → name ∈ used

theorem podInv_add (pod : Pod) (used : List Str) (live : List (Str × Str))
    (st : PodState) (hfresh : pod.name ∉ used) (hinv : PodInv used live st) :
    PodInv (pod.name :: used)
      (mstore live pod.name (getWorkloadAndNamespace pod))
      (onAddOrUpdatePod pod pod st true).1 := by
  set g := getWorkloadAndNamespace pod with hg
  have hlivefresh : mlookup live pod.name = none := by
    by_cases hln : mlookup live pod.name = none
    · exact hln
    · exact absurd (hinv.liveUsed pod.name hln) hfresh
  have hptwnone : mlookup st.podToWorkloadAndNamespace pod.name = none := by
    by_cases hpn : mlookup st.podToWorkloadAndNamespace pod.name = none
    · exact hpn
    · exact absurd (hinv.ptwUsed pod.name hpn) hfresh
  have hstep : (onAddOrUpdatePod pod pod st true).1.podToWorkloadAndNamespace
        = (if g ≠ [] then mstore st.podToWorkloadAndNamespace pod.name g
           else st.podToWorkloadAndNamespace) ∧
      (onAddOrUpdatePod pod pod st true).1.workloadPodCount
        = (if g ≠ [] then
            (fun w => if w = g then st.workloadPodCount w + 1
              else st.workloadPodCount w)
           else st.workloadPodCount) := by
    unfold onAddOrUpdatePod
    by_cases hge : g ≠ []
    · rw [← hg]
      simp only [if_pos hge]
      constructor <;> trivial
    · rw [← hg]
      simp only [if_neg hge]
      constructor <;> trivial
  obtain ⟨hptw', hcount'⟩ := hstep
  constructor
  · intro name d hl
    rw [hptw']
    by_cases hn : name = pod.name
    · subst hn
      rw [mlookup_mstore_self] at hl
      have hd : g = d := Option.some.inj hl
      subst hd
      by_cases hge : g ≠ []
      · rw [if_pos hge, if_neg hge, mlookup_mstore_self]
      · rw [if_neg hge]
        have hgnil : g = [] := by
          by_cases hx : g = []
          · exact hx
          · exact absurd hx hge
        rw [if_pos hgnil]
        exact hptwnone
    · rw [mlookup_mstore_ne _ _ _ _ hn] at hl
      by_cases hge : g ≠ []
      · rw [if_pos hge, mlookup_mstore_ne _ _ _ _ hn]
        exact hinv.ptwLive name d hl
      · rw [if_neg hge]
        exact hinv.ptwLive name d hl
  · intro name hne
    rw [hptw'] at hne
    by_cases hge : g ≠ []
    · rw [if_pos hge] at hne
      by_cases hn : name = pod.name
      · rw [hn]
        exact List.mem_cons_self _ _
      · rw [mlookup_mstore_ne _ _ _ _ hn] at hne
        exact List.mem_cons_of_mem _ (hinv.ptwUsed name hne)
    · rw [if_neg hge] at hne
      exact List.mem_cons_of_mem _ (hinv.ptwUsed name hne)
  · intro w hw
    rw [hcount', countVal_mstore_of_none live pod.name g w hlivefresh]
    by_cases hge : g ≠ []
    · rw [if_pos hge]
      change (if w = g then st.workloadPodCount w + 1 else st.workloadPodCount w)
        = countVal live w + (if g = w then 1 else 0)
      by_cases hwg : w = g
      · rw [if_pos hwg, if_pos hwg.symm, hinv.countEq w hw]
      · have hgw : ¬ (g = w) := fun hh => hwg hh.symm
        rw [if_neg hwg, if_neg hgw, hinv.countEq w hw]
        omega
    · rw [if_neg hge]
      have hgnil : g = [] := by
        by_cases hx : g = []
        · exact hx
        · exact absurd hx hge
      have hgw : ¬ (g = w) := by
        rw [hgnil]
        exact fun hh => hw hh.symm
      rw [if_neg hgw, hinv.countEq w hw]
      omega
  · rw [mstore_eq_append_of_lookup_none _ _ _ hlivefresh]
    rw [List.map_append]
    rw [List.nodup_append]
    refine ⟨hinv.liveNodup, by simp, ?_⟩
    intro a ha hb
    simp at hb
    subst hb
    exact ((mlookup_eq_none_iff live pod.name).mp hlivefresh) ha
  · intro name hne
    by_cases hn : name = pod.name
    · rw [hn]
      exact List.mem_cons_self _ _
    · rw [mlookup_mstore_ne _ _ _ _ hn] at hne
      exact List.mem_cons_of_mem _ (hinv.liveUsed name hne)

theorem podInv_update (newPod oldPod : Pod) (used : List Str)
    (live : List (Str × Str)) (st : PodState)
    (hlk : mlookup live newPod.name = some (getWorkloadAndNamespace newPod))
    (hinv : PodInv used live st) :
    PodInv used live (onAddOrUpdatePod newPod oldPod st false).1 := by
  set g := getWorkloadAndNamespace newPod with hg
  have hstep : (onAddOrUpdatePod newPod oldPod st false).1.podToWorkloadAndNamespace
        = (if g ≠ [] then mstore st.podToWorkloadAndNamespace newPod.name g
           else st.podToWorkloadAndNamespace) ∧
      (onAddOrUpdatePod newPod oldPod st false).1.workloadPodCount
        = st.workloadPodCount := by
    unfold onAddOrUpdatePod
    by_cases hge : g ≠ []
    · rw [← hg]
      simp only [if_pos hge, Bool.false_eq_true, if_false]
      constructor <;> trivial
    · rw [← hg]
      simp only [if_neg hge]
      constructor <;> trivial
  obtain ⟨hptw', hcount'⟩ := hstep
  have hsame : (onAddOrUpdatePod newPod oldPod st false).1.podToWorkloadAndNamespace
      = st.podToWorkloadAndNamespace := by
    rw [hptw']
    by_cases hge : g ≠ []
    · rw [if_pos hge]
      have := hinv.ptwLive newPod.name g hlk
      rw [if_neg (by
        intro hx
        exact hge hx)] at this
      exact mstore_eq_of_lookup _ _ _ this
    · rw [if_neg hge]
  exact ⟨by rw [hsame]; exact hinv.ptwLive,
    by rw [hsame]; exact hinv.ptwUsed,
    by rw [hcount']; exact hinv.countEq,
    hinv.liveNodup, hinv.liveUsed⟩

theorem podInv_delete (pod : Pod) (used : List Str)
    (live : List (Str × Str)) (st : PodState)
    (hlk : mlookup live pod.name = some (getWorkloadAndNamespace pod))
    (hinv : PodInv used live st) :
    PodInv used (mdelete live pod.name) (onDeletePod pod st).1 := by
  set g := getWorkloadAndNamespace pod with hg
  have hptw := hinv.ptwLive pod.name g hlk
  have hnodup' : ((mdelete live pod.name).map Prod.fst).Nodup :=
    ((mdelete_sublist live pod.name).map Prod.fst).nodup hinv.liveNodup
  have hlive' : ∀ name d, mlookup (mdelete live pod.name) name = some d →
      mlookup live name = some d := by
    intro name d hl
    by_cases hn : name = pod.name
    · subst hn
      rw [mlookup_mdelete_self] at hl
      exact Option.noConfusion hl
    · rw [mlookup_mdelete_ne _ _ _ hn] at hl
      exact hl
  by_cases hge : g = []
  · rw [hge, if_pos rfl] at hptw
    have hst : (onDeletePod pod st).1 = st := by
      unfold onDeletePod
      rw [hptw]
    rw [hst]
    refine ⟨?_, hinv.ptwUsed, ?_, hnodup', ?_⟩
    · intro name d hl
      exact hinv.ptwLive name d (hlive' name d hl)
    · intro w hw
      rw [hinv.countEq w hw,
        countVal_mdelete live pod.name g w hinv.liveNodup hlk]
      have hgw : ¬ (g = w) := by
        rw [hge]
        exact fun hh => hw hh.symm
      rw [if_neg hgw]
      omega
    · intro name hne
      by_cases hn : name = pod.name
      · subst hn
        rw [mlookup_mdelete_self] at hne
        exact absurd rfl hne
      · rw [mlookup_mdelete_ne _ _ _ hn] at hne
        exact hinv.liveUsed name hne
  · rw [if_neg hge] at hptw
    have hst : (onDeletePod pod st).1.podToWorkloadAndNamespace
          = st.podToWorkloadAndNamespace ∧
        (onDeletePod pod st).1.workloadPodCount
          = fun w => if w = g then st.workloadPodCount w - 1
              else st.workloadPodCount w := by
      unfold onDeletePod
      rw [hptw]
      constructor <;> trivial
    obtain ⟨hptw', hcount'⟩ := hst
    refine ⟨?_, ?_, ?_, hnodup', ?_⟩
    · intro name d hl
      rw [hptw']
      exact hinv.ptwLive name d (hlive' name d hl)
    · intro name hne
      rw [hptw'] at hne
      exact hinv.ptwUsed name hne
    · intro w hw
      rw [hcount',
        countVal_mdelete live pod.name g w hinv.liveNodup hlk]
      change (if w = g then st.workloadPodCount w - 1 else st.workloadPodCount w)
        = countVal live w - (if g = w then 1 else 0)
      by_cases hwg : w = g
      · rw [if_pos hwg, if_pos hwg.symm, hinv.countEq w hw]
      · have hgw : ¬ (g = w) := fun hh => hwg hh.symm
        rw [if_neg hwg, if_neg hgw, hinv.countEq w hw]
        omega
    · intro name hne
      by_cases hn : name = pod.name
      · subst hn
        rw [mlookup_mdelete_self] at hne
        exact absurd rfl hne
      · rw [mlookup_mdelete_ne _ _ _ hn] at hne
        exact hinv.liveUsed name hne

theorem podInv_run (events : List PodEvent) :
    ∀ used live st, wfPod used live events → PodInv used live st →
      ∀ w : Str, w ≠ [] →
        (podRunFrom st events).workloadPodCount w
          = countVal (liveFold live events) w := by
  induction events with
  | nil =>
    intro used live st _ hinv w hw
    exact hinv.countEq w hw
  | cons e rest ih =>
    intro used live st hwf hinv w hw
    cases e with
    | add pod =>
      obtain ⟨hfresh, hwf'⟩ := hwf
      exact ih _ _ _ hwf' (podInv_add pod used live st hfresh hinv) w hw
    | update oldPod newPod =>
      obtain ⟨_, hlk, hwf'⟩ := hwf
      exact ih _ _ _ hwf'
        (podInv_update newPod oldPod used live st hlk hinv) w hw
    | delete pod =>
      obtain ⟨hlk, hwf'⟩ := hwf
      exact ih _ _ _ hwf'
        (podInv_delete pod used live st hlk hinv) w hw

theorem podInv_empty : PodInv [] [] emptyPodState := by
  refine ⟨?_, ?_, ?_, ?_, ?_⟩
  · intro name d hl
    exact Option.noConfusion hl
  · intro name hne
    exact absurd rfl hne
  · intro w _
    rfl
  · simp
  · intro name hne
    exact absurd rfl hne

/-- The pod that drives the C6 counterexample: a StatefulSet pod whose
update event arrives without a preceding add. -/
def c6pod : Pod :=
  { name := ("db-0").toList
    nameSpace := ("prod").toList
    labels := []
    ownerReferences := [OwnerReference.mk (("StatefulSet").toList) (("db").toList)]
    hostNetwork := false
    containers := []
    podIP := []
    hostIP := [] }

/-- C6 counterexample event history: an update (which populates
`podToWorkloadAndNamespace` without touching the counter) followed by a
delete (which decrements it), with no add ever incrementing it. -/
def c6events : List PodEvent :=
  [PodEvent.update c6pod c6pod, PodEvent.delete c6pod]

/-- C6 counterexample: after the history `c6events` the counter of workload
`db@prod` is -1 while no live pod derives that workload, so the claimed
equality fails for an (adversarial but type-correct) event sequence. -/
theorem workloadPodCount_cex :
    (podRun c6events).workloadPodCount
        (attachNamespace (("db").toList) (("prod").toList))
      ≠ countVal (liveFold [] c6events)
        (attachNamespace (("db").toList) (("prod").toList)) := by
  decide

/-- C6 amended: over well-formed pod event histories (adds use fresh names,
updates preserve the name and derived workload of a live pod, deletes remove
a live pod), `workloadPodCount[w]` equals the number of currently-live pods
whose derived workload is `w`, for every non-empty workload name `w`. -/
theorem workloadPodCount_spec (events : List PodEvent) (w : Str)
    (hwf : wfPod [] [] events) (hw : w ≠ []) :
    (podRun events).workloadPodCount w = countVal (liveFold [] events) w :=
  podInv_run events [] [] emptyPodState hwf podInv_empty w hw

/-- A well-formed add/delete pair for the C6 witness. -/
def c6podOk : Pod :=
  { c6pod with podIP := ("10.3.0.2").toList }

/-- Closed instance of the C6 amended theorem on a concrete well-formed
history. -/
theorem workloadPodCount_spec_witness :
    (podRun [PodEvent.add c6podOk, PodEvent.delete c6podOk]).workloadPodCount
        (attachNamespace (("db").toList) (("prod").toList))
      = countVal
        (liveFold [] [PodEvent.add c6podOk, PodEvent.delete c6podOk])
        (attachNamespace (("db").toList) (("prod").toList)) :=
  workloadPodCount_spec [PodEvent.add c6podOk, PodEvent.delete c6podOk]
    (attachNamespace (("db").toList) (("prod").toList))
    ⟨by decide, by decide, trivial⟩ (by decide)

/-! ## Service watcher and C8 -/

/-- A service, restricted to the fields the watcher reads: metadata name and
namespace, `spec.clusterIP` and `spec.selector`. -/
structure Service where
  name : Str
  nameSpace : Str
  clusterIP : Str
  selector : List (Str × Str)
deriving DecidableEq

/-- Model of `getServiceAndNamespace`. -/
def getServiceAndNamespace (service : Service) : Str :=
  attachNamespace service.name service.nameSpace

/-- The state owned by the service watcher. -/
structure SvcState where
  ipToServiceAndNamespace : List (Str × Str)
  serviceAndNamespaceToSelectors : List (Str × List Str)

def emptySvcState : SvcState :=
  { ipToServiceAndNamespace := [], serviceAndNamespaceToSelectors := [] }

/-- Model of `onAddOrUpdateService`: the ClusterIP is indexed only when it is
neither empty nor the literal `None`; the selector set is stored only when
non-empty. -/
def onAddOrUpdateService (service : Service) (st : SvcState) : SvcState :=
  { ipToServiceAndNamespace :=
      if service.clusterIP ≠ [] ∧ service.clusterIP ≠ ("None").toList then
        mstore st.ipToServiceAndNamespace service.clusterIP
          (getServiceAndNamespace service)
      else st.ipToServiceAndNamespace
    serviceAndNamespaceToSelectors :=
      if labelStrings service.selector ≠ [] then
        mstore st.serviceAndNamespaceToSelectors (getServiceAndNamespace service)
          (labelStrings service.selector)
      else st.serviceAndNamespaceToSelectors }

/-- Model of `onDeleteService`: only schedules deferred deletions. -/
def onDeleteService (service : Service) (st : SvcState) : SvcState × List Sched :=
  (st,
    (if service.clusterIP ≠ [] ∧ service.clusterIP ≠ ("None").toList then
      [Sched.mk MapId.ipToServiceAndNamespace service.clusterIP]
     else [])
    ++ [Sched.mk MapId.serviceAndNamespaceToSelectors
          (getServiceAndNamespace service)])

/-- The three service event kinds delivered by the informer. -/
inductive SvcEvent
  | add (service : Service)
  | update (oldService newService : Service)
  | delete (service : Service)
deriving DecidableEq

/-- Dispatch of one service event, as wired in `ServiceWatcher.Run` (update
passes only the new object to `onAddOrUpdateService`). -/
def svcStep (st : SvcState) : SvcEvent → SvcState × List Sched
  | SvcEvent.add s => (onAddOrUpdateService s st, [])
  | SvcEvent.update _ n => (onAddOrUpdateService n st, [])
  | SvcEvent.delete s => onDeleteService s st

def svcRunFrom (st : SvcState) (events : List SvcEvent) : SvcState :=
  events.foldl (fun s e => (svcStep s e).1) st

/-- Run a sequence of service events from the freshly initialised watcher
state. -/
def svcRun (events : List SvcEvent) : SvcState :=
  svcRunFrom emptySvcState events

/-- Keys `""` and `"None"` are absent from a map. -/
def noHeadlessKeys (m : List (Str × Str)) : Prop :=
  mlookup m [] = none ∧ mlookup m (("None").toList) = none

theorem mlookup_mdelete_of_none {α : Type} (m : List (Str × α)) (k k' : Str)
    (h : mlookup m k = none) : mlookup (mdelete m k') k = none := by
  by_cases he : k = k'
  · subst he
    exact mlookup_mdelete_self m k
  · rw [mlookup_mdelete_ne _ _ _ he]
    exact h

theorem onAddOrUpdateService_noHeadless (s : Service) (st : SvcState)
    (h : noHeadlessKeys st.ipToServiceAndNamespace) :
    noHeadlessKeys (onAddOrUpdateService s st).ipToServiceAndNamespace := by
  unfold onAddOrUpdateService
  by_cases hc : s.clusterIP ≠ [] ∧ s.clusterIP ≠ ("None").toList
  · simp only [if_pos hc]
    constructor
    · rw [mlookup_mstore_ne _ _ _ _ (Ne.symm hc.1)]
      exact h.1
    · rw [mlookup_mstore_ne _ _ _ _ (Ne.symm hc.2)]
      exact h.2
  · simp only [if_neg hc]
    exact h

theorem svcRunFrom_noHeadless (events : List SvcEvent) :
    ∀ st, noHeadlessKeys st.ipToServiceAndNamespace →
      noHeadlessKeys (svcRunFrom st events).ipToServiceAndNamespace := by
  induction events with
  | nil =>
    intro st h
    exact h
  | cons e rest ih =>
    intro st h
    cases e with
    | add s => exact ih _ (onAddOrUpdateService_noHeadless s st h)
    | update o n => exact ih _ (onAddOrUpdateService_noHeadless n st h)
    | delete s => exact ih _ h

/-- C8: after any sequence of service events, and after any of the scheduled
deferred deletions have since fired (deletion only ever removes keys), the
`ipToServiceAndNamespace` index contains no entry with key `""` or
`"None"`. -/
theorem ipToService_no_headless (events : List SvcEvent) (ks : List Str) :
    mlookup (ks.foldl mdelete (svcRun events).ipToServiceAndNamespace) []
        = none ∧
    mlookup (ks.foldl mdelete (svcRun events).ipToServiceAndNamespace)
        (("None").toList) = none := by
  have hrun : noHeadlessKeys (svcRun events).ipToServiceAndNamespace :=
    svcRunFrom_noHeadless events emptySvcState ⟨rfl, rfl⟩
  have hdel : ∀ (ks : List Str) (m : List (Str × Str)), noHeadlessKeys m →
      noHeadlessKeys (ks.foldl mdelete m) := by
    intro ks
    induction ks with
    | nil =>
      intro m h
      exact h
    | cons k rest ih =>
      intro m h
      exact ih _ ⟨mlookup_mdelete_of_none m [] k h.1,
        mlookup_mdelete_of_none m (("None").toList) k h.2⟩
  exact hdel ks _ hrun

/-! ## ServiceToWorkloadMapper and C5 -/

/-- Model of `mapset.Set.IsSubset` on label sets. -/
def isSubsetLabels (a b : List Str) : Bool :=
  a.all (fun x => b.contains x)

theorem isSubsetLabels_iff (a b : List Str) :
    isSubsetLabels a b = true ↔ ∀ x ∈ a, x ∈ b := by
  unfold isSubsetLabels
  rw [List.all_eq_true]
  constructor
  · intro h x hx
    exact List.mem_of_elem_eq_true (h x hx)
  · intro h x hx
    exact List.elem_eq_true_of_mem (h x hx)

/-- Levels of the zap logger. -/
inductive LogLevel
  | debug
  | info
  | warn
deriving DecidableEq

/-- The log events `MapServiceToWorkload` can emit. -/
inductive MapperLog
  | foundWorkload (service workload : Str)
  | multipleWorkloads (service : Str)
  | noWorkload (service : Str)
deriving DecidableEq

/-- One log record: level and event. -/
structure LogEntry where
  level : LogLevel
  event : MapperLog
deriving DecidableEq

/-- The inner `workloadAndNamespaceToLabels.Range` loop of
`MapServiceToWorkload`: the workloads whose namespace equals the service's
(and is non-empty) and whose label set contains every service selector. -/
def candidateWorkloads (workloadAndNamespaceToLabels : List (Str × List Str))
    (serviceNamespace : Str) (serviceLabels : List Str) : List Str :=
  workloadAndNamespaceToLabels.foldl
    (fun ws kv =>
      if (extractResourceAndNamespace kv.1).2 = serviceNamespace ∧
          (extractResourceAndNamespace kv.1).2 ≠ [] ∧
          isSubsetLabels serviceLabels kv.2 = true then
        ws ++ [kv.1]
      else ws) []

theorem candidateWorkloads_go_append
    (labL : List (Str × List Str)) (ns : Str) (sels : List Str) :
    ∀ acc : List Str,
      labL.foldl
        (fun ws kv =>
          if (extractResourceAndNamespace kv.1).2 = ns ∧
              (extractResourceAndNamespace kv.1).2 ≠ [] ∧
              isSubsetLabels sels kv.2 = true then
            ws ++ [kv.1]
          else ws) acc
      = acc ++ candidateWorkloads labL ns sels := by
  unfold candidateWorkloads
  induction labL with
  | nil =>
    intro acc
    simp
  | cons kv rest ih =>
    intro acc
    rw [List.foldl_cons, List.foldl_cons]
    by_cases hp : (extractResourceAndNamespace kv.1).2 = ns ∧
        (extractResourceAndNamespace kv.1).2 ≠ [] ∧
        isSubsetLabels sels kv.2 = true
    · rw [if_pos hp, if_pos hp, ih (acc ++ [kv.1]), ih ([] ++ [kv.1])]
      simp
    · rw [if_neg hp, if_neg hp]
      exact ih acc

theorem candidateWorkloads_mem (labL : List (Str × List Str)) (ns : Str)
    (sels : List Str) (w : Str) :
    w ∈ candidateWorkloads labL ns sels ↔
      ∃ ls, (w, ls) ∈ labL ∧ (extractResourceAndNamespace w).2 = ns ∧
        (extractResourceAndNamespace w).2 ≠ [] ∧
        isSubsetLabels sels ls = true := by
  induction labL with
  | nil =>
    simp [candidateWorkloads]
  | cons kv rest ih =>
    obtain ⟨k₀, ls₀⟩ := kv
    have hstep :
        candidateWorkloads ((k₀, ls₀) :: rest) ns sels
          = (if (extractResourceAndNamespace k₀).2 = ns ∧
                (extractResourceAndNamespace k₀).2 ≠ [] ∧
                isSubsetLabels sels ls₀ = true then [k₀] else [])
            ++ candidateWorkloads rest ns sels := by
      show List.foldl _ _ ((k₀, ls₀) :: rest) = _
      rw [List.foldl_cons, candidateWorkloads_go_append rest ns sels]
      by_cases hp : (extractResourceAndNamespace k₀).2 = ns ∧
          (extractResourceAndNamespace k₀).2 ≠ [] ∧
          isSubsetLabels sels ls₀ = true
      · rw [if_pos hp, if_pos hp]
        simp
      · rw [if_neg hp, if_neg hp]
    rw [hstep]
    by_cases hp : (extractResourceAndNamespace k₀).2 = ns ∧
        (extractResourceAndNamespace k₀).2 ≠ [] ∧
        isSubsetLabels sels ls₀ = true
    · rw [if_pos hp]
      constructor
      · intro hmem
        rcases List.mem_append.mp hmem with h1 | h2
        · rw [List.mem_singleton] at h1
          subst h1
          exact ⟨ls₀, List.mem_cons_self _ _, hp⟩
        · obtain ⟨ls, hmem', hrest⟩ := ih.mp h2
          exact ⟨ls, List.mem_cons_of_mem _ hmem', hrest⟩
      · intro ⟨ls, hmem', hcond⟩
        rcases List.mem_cons.mp hmem' with h1 | h2
        · have : w = k₀ := congrArg Prod.fst h1
          subst this
          exact List.mem_append_left _ (List.mem_singleton_self _)
        · exact List.mem_append_right _ (ih.mpr ⟨ls, h2, hcond⟩)
    · rw [if_neg hp]
      rw [List.nil_append]
      constructor
      · intro hmem
        obtain ⟨ls, hmem', hrest⟩ := ih.mp hmem
        exact ⟨ls, List.mem_cons_of_mem _ hmem', hrest⟩
      · intro ⟨ls, hmem', hcond⟩
        rcases List.mem_cons.mp hmem' with h1 | h2
        · exfalso
          have hw : w = k₀ := congrArg Prod.fst h1
          have hls : ls = ls₀ := congrArg Prod.snd h1
          subst hw
          subst hls
          exact hp hcond
        · exact ih.mpr ⟨ls, h2, hcond⟩

/-- The outcome of one mapper run: the updated `serviceToWorkload` index,
the scheduled deferred deletions, and the log records. -/
structure MapperResult where
  serviceToWorkload : List (Str × Str)
  scheds : List Sched
  logs : List LogEntry

/-- The body of the outer `serviceAndNamespaceToSelectors.Range` loop of
`MapServiceToWorkload`, processing one `(serviceAndNamespace, selectors)`
entry: store the single candidate, or log at info level when several
candidates exist (storing and deleting nothing), or schedule deferred
removal when none does. -/
def mapServiceToWorkloadStep (workloadAndNamespaceToLabels : List (Str × List Str))
    (acc : MapperResult) (kv : Str × List Str) : MapperResult :=
  let workloads := candidateWorkloads workloadAndNamespaceToLabels
    (extractResourceAndNamespace kv.1).2 kv.2
  let foundLogs := workloads.map
    (fun w => LogEntry.mk LogLevel.debug (MapperLog.foundWorkload kv.1 w))
  if workloads.length > 1 then
    { acc with logs := acc.logs ++ foundLogs
        ++ [LogEntry.mk LogLevel.info (MapperLog.multipleWorkloads kv.1)] }
  else if workloads.length = 1 then
    { acc with
        serviceToWorkload :=
          mstore acc.serviceToWorkload kv.1 (workloads.headD [])
        logs := acc.logs ++ foundLogs }
  else
    { acc with
        scheds := acc.scheds ++ [Sched.mk MapId.serviceToWorkload kv.1]
        logs := acc.logs ++ foundLogs
          ++ [LogEntry.mk LogLevel.debug (MapperLog.noWorkload kv.1)] }

/-- Model of `ServiceToWorkloadMapper.MapServiceToWorkload`, one full run of
the periodic join. -/
def MapServiceToWorkload (serviceAndNamespaceToSelectors : List (Str × List Str))
    (workloadAndNamespaceToLabels : List (Str × List Str))
    (serviceToWorkload : List (Str × Str)) : MapperResult :=
  serviceAndNamespaceToSelectors.foldl
    (mapServiceToWorkloadStep workloadAndNamespaceToLabels)
    { serviceToWorkload := serviceToWorkload, scheds := [], logs := [] }

theorem mapperStep_map_ne (labL : List (Str × List Str)) (acc : MapperResult)
    (kv : Str × List Str) (s : Str) (h : s ≠ kv.1) :
    mlookup (mapServiceToWorkloadStep labL acc kv).serviceToWorkload s
      = mlookup acc.serviceToWorkload s := by
  unfold mapServiceToWorkloadStep
  by_cases h1 : (candidateWorkloads labL (extractResourceAndNamespace kv.1).2
      kv.2).length > 1
  · rw [if_pos h1]
  · rw [if_neg h1]
    by_cases h2 : (candidateWorkloads labL (extractResourceAndNamespace kv.1).2
        kv.2).length = 1
    · rw [if_pos h2]
      exact mlookup_mstore_ne _ _ _ _ h
    · rw [if_neg h2]

theorem mapperStep_sched_ne (labL : List (Str × List Str)) (acc : MapperResult)
    (kv : Str × List Str) (s : Str) (h : s ≠ kv.1) :
    (Sched.mk MapId.serviceToWorkload s
        ∈ (mapServiceToWorkloadStep labL acc kv).scheds
      ↔ Sched.mk MapId.serviceToWorkload s ∈ acc.scheds) := by
  unfold mapServiceToWorkloadStep
  by_cases h1 : (candidateWorkloads labL (extractResourceAndNamespace kv.1).2
      kv.2).length > 1
  · rw [if_pos h1]
  · rw [if_neg h1]
    by_cases h2 : (candidateWorkloads labL (extractResourceAndNamespace kv.1).2
        kv.2).length = 1
    · rw [if_pos h2]
    · rw [if_neg h2]
      constructor
      · intro hmem
        rcases List.mem_append.mp hmem with hin | hin
        · exact hin
        · rw [List.mem_singleton] at hin
          exact absurd (congrArg Sched.key hin) h
      · intro hmem
        exact List.mem_append_left _ hmem

theorem mapperStep_log_mono (labL : List (Str × List Str)) (acc : MapperResult)
    (kv : Str × List Str) (x : LogEntry) (h : x ∈ acc.logs) :
    x ∈ (mapServiceToWorkloadStep labL acc kv).logs := by
  unfold mapServiceToWorkloadStep
  by_cases h1 : (candidateWorkloads labL (extractResourceAndNamespace kv.1).2
      kv.2).length > 1
  · rw [if_pos h1]
    exact List.mem_append_left _ (List.mem_append_left _ h)
  · rw [if_neg h1]
    by_cases h2 : (candidateWorkloads labL (extractResourceAndNamespace kv.1).2
        kv.2).length = 1
    · rw [if_pos h2]
      exact List.mem_append_left _ h
    · rw [if_neg h2]
      exact List.mem_append_left _ (List.mem_append_left _ h)

theorem mapperFold_map_ne (labL : List (Str × List Str)) :
    ∀ (selL : List (Str × List Str)) (acc : MapperResult) (s : Str),
      s ∉ selL.map Prod.fst →
      mlookup ((selL.foldl (mapServiceToWorkloadStep labL)
          acc).serviceToWorkload) s
        = mlookup acc.serviceToWorkload s := by
  intro selL
  induction selL with
  | nil =>
    intro acc s _
    rfl
  | cons kv rest ih =>
    intro acc s h
    rw [List.map_cons] at h
    have h1 : s ≠ kv.1 := fun hh => h (by rw [hh]; exact List.mem_cons_self _ _)
    have h2 : s ∉ rest.map Prod.fst := fun hm => h (List.mem_cons_of_mem _ hm)
    rw [List.foldl_cons, ih _ s h2, mapperStep_map_ne labL acc kv s h1]

theorem mapperFold_sched_ne (labL : List (Str × List Str)) :
    ∀ (selL : List (Str × List Str)) (acc : MapperResult) (s : Str),
      s ∉ selL.map Prod.fst →
      (Sched.mk MapId.serviceToWorkload s
          ∈ (selL.foldl (mapServiceToWorkloadStep labL) acc).scheds
        ↔ Sched.mk MapId.serviceToWorkload s ∈ acc.scheds) := by
  intro selL
  induction selL with
  | nil =>
    intro acc s _
    exact Iff.rfl
  | cons kv rest ih =>
    intro acc s h
    rw [List.map_cons] at h
    have h1 : s ≠ kv.1 := fun hh => h (by rw [hh]; exact List.mem_cons_self _ _)
    have h2 : s ∉ rest.map Prod.fst := fun hm => h (List.mem_cons_of_mem _ hm)
    rw [List.foldl_cons, ih _ s h2, mapperStep_sched_ne labL acc kv s h1]

theorem mapperFold_log_mono (labL : List (Str × List Str)) :
    ∀ (selL : List (Str × List Str)) (acc : MapperResult) (x : LogEntry),
      x ∈ acc.logs →
      x ∈ (selL.foldl (mapServiceToWorkloadStep labL) acc).logs := by
  intro selL
  induction selL with
  | nil =>
    intro acc x h
    exact h
  | cons kv rest ih =>
    intro acc x h
    rw [List.foldl_cons]
    exact ih _ x (mapperStep_log_mono labL acc kv x h)

theorem mapperFold_spec (labL : List (Str × List Str)) :
    ∀ (selL : List (Str × List Str)) (acc : MapperResult) (s : Str)
      (sels : List Str),
      (selL.map Prod.fst).Nodup →
      mlookup selL s = some sels →
      (∀ w, candidateWorkloads labL (extractResourceAndNamespace s).2 sels
            = [w] →
          mlookup ((selL.foldl (mapServiceToWorkloadStep labL)
              acc).serviceToWorkload) s = some w) ∧
      ((candidateWorkloads labL (extractResourceAndNamespace s).2 sels).length
            > 1 →
          mlookup ((selL.foldl (mapServiceToWorkloadStep labL)
              acc).serviceToWorkload) s = mlookup acc.serviceToWorkload s ∧
          (Sched.mk MapId.serviceToWorkload s
              ∈ (selL.foldl (mapServiceToWorkloadStep labL) acc).scheds
            ↔ Sched.mk MapId.serviceToWorkload s ∈ acc.scheds) ∧
          LogEntry.mk LogLevel.info (MapperLog.multipleWorkloads s)
            ∈ (selL.foldl (mapServiceToWorkloadStep labL) acc).logs) ∧
      (candidateWorkloads labL (extractResourceAndNamespace s).2 sels = [] →
          Sched.mk MapId.serviceToWorkload s
            ∈ (selL.foldl (mapServiceToWorkloadStep labL) acc).scheds ∧
          mlookup ((selL.foldl (mapServiceToWorkloadStep labL)
              acc).serviceToWorkload) s = mlookup acc.serviceToWorkload s) := by
  intro selL
  induction selL with
  | nil =>
    intro acc s sels _ hlk
    exact Option.noConfusion hlk
  | cons kv rest ih =>
    intro acc s sels hnd hlk
    obtain ⟨k₀, sel₀⟩ := kv
    rw [List.map_cons, List.nodup_cons] at hnd
    obtain ⟨hk₀, hnd'⟩ := hnd
    by_cases hs : k₀ = s
    · subst hs
      rw [mlookup, if_pos rfl] at hlk
      have hsel : sel₀ = sels := Option.some.inj hlk
      subst hsel
      rw [List.foldl_cons]
      set cands := candidateWorkloads labL
        (extractResourceAndNamespace k₀).2 sel₀ with hcands
      refine ⟨?_, ?_, ?_⟩
      · intro w hw
        have hlen1 : ¬ (cands.length > 1) := by
          rw [hw]
          simp
        have hlen2 : cands.length = 1 := by
          rw [hw]
          rfl
        have hstep : (mapServiceToWorkloadStep labL acc
              (k₀, sel₀)).serviceToWorkload
            = mstore acc.serviceToWorkload k₀ (cands.headD []) := by
          unfold mapServiceToWorkloadStep
          rw [← hcands, if_neg hlen1, if_pos hlen2]
        rw [mapperFold_map_ne labL rest _ k₀ hk₀, hstep]
        rw [hw]
        rw [mlookup_mstore_self]
        rfl
      · intro hlen
        have hstep : (mapServiceToWorkloadStep labL acc (k₀, sel₀))
            = { acc with logs := acc.logs
                ++ cands.map (fun w => LogEntry.mk LogLevel.debug
                    (MapperLog.foundWorkload k₀ w))
                ++ [LogEntry.mk LogLevel.info
                    (MapperLog.multipleWorkloads k₀)] } := by
          unfold mapServiceToWorkloadStep
          rw [← hcands, if_pos hlen]
        rw [mapperFold_map_ne labL rest _ k₀ hk₀, hstep]
        refine ⟨rfl, ?_, ?_⟩
        · rw [mapperFold_sched_ne labL rest _ k₀ hk₀]
        · apply mapperFold_log_mono labL rest _ _
          exact List.mem_append_right _ (List.mem_singleton_self _)
      · intro hnil
        have hlen1 : ¬ (cands.length > 1) := by
          rw [hnil]
          simp
        have hlen2 : ¬ (cands.length = 1) := by
          rw [hnil]
          simp
        have hstep : (mapServiceToWorkloadStep labL acc (k₀, sel₀))
            = { acc with
                scheds := acc.scheds
                  ++ [Sched.mk MapId.serviceToWorkload k₀]
                logs := acc.logs
                  ++ cands.map (fun w => LogEntry.mk LogLevel.debug
                      (MapperLog.foundWorkload k₀ w))
                  ++ [LogEntry.mk LogLevel.debug (MapperLog.noWorkload k₀)] } := by
          unfold mapServiceToWorkloadStep
          rw [← hcands, if_neg hlen1, if_neg hlen2]
        refine ⟨?_, ?_⟩
        · rw [mapperFold_sched_ne labL rest _ k₀ hk₀, hstep]
          exact List.mem_append_right _ (List.mem_singleton_self _)
        · rw [mapperFold_map_ne labL rest _ k₀ hk₀, hstep]
    · rw [mlookup, if_neg hs] at hlk
      rw [List.foldl_cons]
      have hres := ih (mapServiceToWorkloadStep labL acc (k₀, sel₀)) s sels
        hnd' hlk
      have hne : s ≠ k₀ := fun hh => hs hh.symm
      refine ⟨hres.1, ?_, ?_⟩
      · intro hlen
        obtain ⟨ha, hb, hc⟩ := hres.2.1 hlen
        refine ⟨?_, ?_, hc⟩
        · rw [ha, mapperStep_map_ne labL acc (k₀, sel₀) s hne]
        · rw [hb, mapperStep_sched_ne labL acc (k₀, sel₀) s hne]
      · intro hnil
        obtain ⟨ha, hb⟩ := hres.2.2 hnil
        refine ⟨ha, ?_⟩
        rw [hb, mapperStep_map_ne labL acc (k₀, sel₀) s hne]

/-- The concrete C5 counterexample inputs: one service whose selector is
matched by two workloads in its namespace, with a pre-existing
`serviceToWorkload` entry for that service. -/
def c5service : Str := attachNamespace (("cart").toList) (("shop").toList)

def c5sel : List (Str × List Str) := [(c5service, [("app=cart").toList])]

def c5lab : List (Str × List Str) :=
  [(attachNamespace (("w1").toList) (("shop").toList), [("app=cart").toList]),
   (attachNamespace (("w2").toList) (("shop").toList), [("app=cart").toList])]

def c5prev : List (Str × Str) :=
  [(c5service, attachNamespace (("stale").toList) (("shop").toList))]

/-- C5 counterexample: with two matching workloads, the mapper does not
schedule the service key for removal (it only logs, leaving the previous
mapping in place), contradicting the claim that the key is scheduled for
removal whenever more than one candidate matches. -/
theorem MapServiceToWorkload_cex :
    Sched.mk MapId.serviceToWorkload c5service
        ∉ (MapServiceToWorkload c5sel c5lab c5prev).scheds ∧
    mlookup (MapServiceToWorkload c5sel c5lab c5prev).serviceToWorkload
        c5service
      = some (attachNamespace (("stale").toList) (("shop").toList)) := by
  decide

/-- C5 amended: after a mapper run over selector entries with pairwise
distinct service keys, a service key is stored exactly when one single
workload in its (non-empty) namespace carries a label superset of its
selectors; with several candidates nothing is stored or scheduled (the
previous mapping stays) and a message is logged at info level; with none the
key is scheduled for deferred removal.  The final conjunct characterises the
candidate set. -/
theorem MapServiceToWorkload_spec (selL labL : List (Str × List Str))
    (s2w : List (Str × Str)) (s : Str) (sels : List Str)
    (hnd : (selL.map Prod.fst).Nodup) (hlk : mlookup selL s = some sels) :
    (∀ w, candidateWorkloads labL (extractResourceAndNamespace s).2 sels = [w] →
      mlookup (MapServiceToWorkload selL labL s2w).serviceToWorkload s
        = some w) ∧
    ((candidateWorkloads labL (extractResourceAndNamespace s).2 sels).length > 1 →
      mlookup (MapServiceToWorkload selL labL s2w).serviceToWorkload s
          = mlookup s2w s ∧
      Sched.mk MapId.serviceToWorkload s
          ∉ (MapServiceToWorkload selL labL s2w).scheds ∧
      LogEntry.mk LogLevel.info (MapperLog.multipleWorkloads s)
          ∈ (MapServiceToWorkload selL labL s2w).logs) ∧
    (candidateWorkloads labL (extractResourceAndNamespace s).2 sels = [] →
      Sched.mk MapId.serviceToWorkload s
          ∈ (MapServiceToWorkload selL labL s2w).scheds ∧
      mlookup (MapServiceToWorkload selL labL s2w).serviceToWorkload s
          = mlookup s2w s) ∧
    (∀ w, w ∈ candidateWorkloads labL (extractResourceAndNamespace s).2 sels ↔
      ∃ ls, (w, ls) ∈ labL ∧
        (extractResourceAndNamespace w).2 = (extractResourceAndNamespace s).2 ∧
        (extractResourceAndNamespace w).2 ≠ [] ∧
        (∀ x ∈ sels, x ∈ ls)) := by
  have hmain := mapperFold_spec labL selL
    { serviceToWorkload := s2w, scheds := [], logs := [] } s sels hnd hlk
  refine ⟨hmain.1, ?_, hmain.2.2, ?_⟩
  · intro hlen
    obtain ⟨ha, hb, hc⟩ := hmain.2.1 hlen
    refine ⟨ha, ?_, hc⟩
    intro hmem
    exact absurd (hb.mp hmem) (List.not_mem_nil _)
  · intro w
    rw [candidateWorkloads_mem]
    constructor
    · intro ⟨ls, h1, h2, h3, h4⟩
      exact ⟨ls, h1, h2, h3, (isSubsetLabels_iff sels ls).mp h4⟩
    · intro ⟨ls, h1, h2, h3, h4⟩
      exact ⟨ls, h1, h2, h3, (isSubsetLabels_iff sels ls).mpr h4⟩

/-- Closed instance of the C5 amended theorem: one service matched by exactly
one workload gets stored. -/
theorem MapServiceToWorkload_spec_witness :
    mlookup (MapServiceToWorkload c5sel
        [(attachNamespace (("w1").toList) (("shop").toList),
          [("app=cart").toList])] []).serviceToWorkload c5service
      = some (attachNamespace (("w1").toList) (("shop").toList)) :=
  (MapServiceToWorkload_spec c5sel
      [(attachNamespace (("w1").toList) (("shop").toList),
        [("app=cart").toList])] [] c5service [("app=cart").toList]
      (by decide) (by decide)).1
    (attachNamespace (("w1").toList) (("shop").toList)) (by decide)

/-! ## Resolver lookup (`GetWorkloadAndNamespaceByIP`) and C1 -/

/-- The indexes of the `eksResolver` read on the lookup path
(`GetWorkloadAndNamespaceByIP` / `Process`); the selector and label indexes
feed only the watchers and the mapper and are modelled with `PodState`,
`SvcState` and the mapper inputs above. -/
structure ResolverState where
  ipToPod : List (Str × Str)
  podToWorkloadAndNamespace : List (Str × Str)
  ipToServiceAndNamespace : List (Str × Str)
  serviceToWorkload : List (Str × Str)

def emptyResolverState : ResolverState :=
  { ipToPod := []
    podToWorkloadAndNamespace := []
    ipToServiceAndNamespace := []
    serviceToWorkload := [] }

/-- The pod chain of the lookup: `ipToPod`, then the pod name into
`podToWorkloadAndNamespace`. -/
def podChainLookup (e : ResolverState) (ip : Str) : Option Str :=
  match mlookup e.ipToPod ip with
  | some pod => mlookup e.podToWorkloadAndNamespace pod
  | none => none

/-- The service chain of the lookup: `ipToServiceAndNamespace`, then the
namespaced service name into `serviceToWorkload`. -/
def serviceChainLookup (e : ResolverState) (ip : Str) : Option Str :=
  match mlookup e.ipToServiceAndNamespace ip with
  | some serviceAndNamespace =>
    mlookup e.serviceToWorkload serviceAndNamespace
  | none => none

/-- Model of `eksResolver.GetWorkloadAndNamespaceByIP`: pod chain first, then
service chain, else the not-found error. -/
def GetWorkloadAndNamespaceByIP (e : ResolverState) (ip : Str) :
    Except Str (Str × Str) :=
  match podChainLookup e ip with
  | some workloadKey => Except.ok (extractResourceAndNamespace workloadKey)
  | none =>
    match serviceChainLookup e ip with
    | some workloadKey => Except.ok (extractResourceAndNamespace workloadKey)
    | none =>
      Except.error (("no EKS workload found for ip: ").toList ++ ip)

/-- C1: the lookup follows the pod chain first and returns the split
namespaced name on a full hit; otherwise it follows the service chain; it
returns the not-found error exactly when neither chain fully hits — in
particular an `ipToPod` hit whose pod is absent from
`podToWorkloadAndNamespace`, with no service-chain hit, errors rather than
answering wrongly. -/
theorem GetWorkloadAndNamespaceByIP_spec (e : ResolverState) (ip : Str) :
    (∀ pod wk, mlookup e.ipToPod ip = some pod →
      mlookup e.podToWorkloadAndNamespace pod = some wk →
      GetWorkloadAndNamespaceByIP e ip
        = Except.ok (extractResourceAndNamespace wk)) ∧
    (∀ wk, podChainLookup e ip = none → serviceChainLookup e ip = some wk →
      GetWorkloadAndNamespaceByIP e ip
        = Except.ok (extractResourceAndNamespace wk)) ∧
    (GetWorkloadAndNamespaceByIP e ip
        = Except.error (("no EKS workload found for ip: ").toList ++ ip)
      ↔ podChainLookup e ip = none ∧ serviceChainLookup e ip = none) ∧
    (∀ pod, mlookup e.ipToPod ip = some pod →
      mlookup e.podToWorkloadAndNamespace pod = none →
      serviceChainLookup e ip = none →
      GetWorkloadAndNamespaceByIP e ip
        = Except.error (("no EKS workload found for ip: ").toList ++ ip)) := by
  refine ⟨?_, ?_, ?_, ?_⟩
  · intro pod wk h1 h2
    have hpc : podChainLookup e ip = some wk := by
      unfold podChainLookup
      rw [h1]
      exact h2
    unfold GetWorkloadAndNamespaceByIP
    rw [hpc]
  · intro wk h1 h2
    unfold GetWorkloadAndNamespaceByIP
    rw [h1, h2]
  · constructor
    · intro herr
      rcases hp : podChainLookup e ip with _ | wk₁
      · rcases hs : serviceChainLookup e ip with _ | wk₂
        · exact ⟨rfl, rfl⟩
        · unfold GetWorkloadAndNamespaceByIP at herr
          rw [hp, hs] at herr
          exact Except.noConfusion herr
      · unfold GetWorkloadAndNamespaceByIP at herr
        rw [hp] at herr
        exact Except.noConfusion herr
    · intro ⟨hp, hs⟩
      unfold GetWorkloadAndNamespaceByIP
      rw [hp, hs]
  · intro pod h1 h2 h3
    have hpc : podChainLookup e ip = none := by
      unfold podChainLookup
      rw [h1]
      exact h2
    unfold GetWorkloadAndNamespaceByIP
    rw [hpc, h3]

/-- The C1 witness state: an `ipToPod` hit whose pod has no recorded
workload, and empty service indexes. -/
def c1state : ResolverState :=
  { ipToPod := [((("1.2.3.4").toList), (("pod-x").toList))]
    podToWorkloadAndNamespace := []
    ipToServiceAndNamespace := []
    serviceToWorkload := [] }

/-- Closed instance of the C1 theorem: the partial pod chain yields the
not-found error. -/
theorem GetWorkloadAndNamespaceByIP_spec_witness :
    GetWorkloadAndNamespaceByIP c1state (("1.2.3.4").toList)
      = Except.error
        (("no EKS workload found for ip: ").toList ++ ("1.2.3.4").toList) :=
  (GetWorkloadAndNamespaceByIP_spec c1state (("1.2.3.4").toList)).2.2.2
    (("pod-x").toList) (by decide) (by decide) (by decide)

/-! ## IP parsing (`isIP` via Go `net.ParseIP`, and `extractIPPort`) -/

/-- Model of `netip.parseIPv4Fields`, the IPv4 parser behind Go
`net.ParseIP`, as a validity check.  `first` tracks whether we are at the
first character, `prevDot` whether the previous character was a dot, `val`
and `digLen` value and digit count of the current octet (leading zeroes and
values above 255 are rejected), `pos` the number of completed octets. -/
def v4Fields : Str → Bool → Bool → Nat → Nat → Nat → Bool
  | [], _, _, _, _, pos => pos == 3
  | c :: rest, first, prevDot, val, digLen, pos =>
    if c.isDigit then
      if digLen == 1 && val == 0 then false
      else
        let val' := val * 10 + (c.toNat - ('0').toNat)
        if val' > 255 then false
        else v4Fields rest false false val' (digLen + 1) pos
    else if c = '.' then
      if first || rest.isEmpty || prevDot then false
      else if pos == 3 then false
      else v4Fields rest false true 0 0 (pos + 1)
    else false

/-- Success of Go `netip.parseIPv4`. -/
def parseIPv4Bool (s : Str) : Bool :=
  v4Fields s true false 0 0 0

/-- Hexadecimal digit value, as in `netip.parseIPv6`. -/
def hexDigitVal (c : Char) : Option Nat :=
  if '0' ≤ c ∧ c ≤ '9' then some (c.toNat - ('0').toNat)
  else if 'a' ≤ c ∧ c ≤ 'f' then some (c.toNat - ('a').toNat + 10)
  else if 'A' ≤ c ∧ c ≤ 'F' then some (c.toNat - ('A').toNat + 10)
  else none

/-- The hex-digit scan of one 16-bit field in `netip.parseIPv6`: `none` when
the accumulator exceeds 0xFFFF (Go fails the parse), otherwise the field
value, the number of digits consumed, and the remaining input. -/
def v6HexRun : Str → Nat → Nat → Option (Nat × Nat × Str)
  | [], acc, off => some (acc, off, [])
  | c :: rest, acc, off =>
    match hexDigitVal c with
    | none => some (acc, off, c :: rest)
    | some d =>
      let acc' := acc * 16 + d
      if acc' > 65535 then none
      else v6HexRun rest acc' (off + 1)

/-- The post-loop checks of `netip.parseIPv6` on the break paths (input
fully consumed): fewer than 16 bytes requires a `::`, exactly 16 forbids
it. -/
def v6Final (i : Nat) (seenE : Bool) : Bool :=
  if i < 16 then seenE else !seenE

/-- The `for i < 16` loop of `netip.parseIPv6`.  `i` counts bytes already
filled and grows by at least 2 per iteration, so the fuel (first argument,
9 at the top-level call) is never exhausted; `seenE` records whether `::`
was already seen.  The embedded-IPv4 branch re-parses from the field start
(which is the loop's current input). -/
def v6Loop : Nat → Str → Nat → Bool → Bool
  | 0, _, _, _ => false
  | fuel + 1, s, i, seenE =>
    if 16 ≤ i then s.isEmpty && !seenE
    else
      match v6HexRun s 0 0 with
      | none => false
      | some (_, off, rest) =>
        if off == 0 then false
        else if rest.head? = some '.' then
          if !seenE && !(i == 12) then false
          else if i + 4 > 16 then false
          else if parseIPv4Bool s then v6Final (i + 4) seenE else false
        else
          match rest with
          | [] => v6Final (i + 2) seenE
          | ':' :: rest2 =>
            match rest2 with
            | [] => false
            | ':' :: rest3 =>
              if seenE then false
              else if rest3.isEmpty then v6Final (i + 2) true
              else v6Loop fuel rest3 (i + 2) true
            | _ => v6Loop fuel rest2 (i + 2) seenE
          | _ => false

/-- Success of Go `netip.parseIPv6` without a zone: a leading `::` is
consumed before the loop, and `::` alone is the unspecified address. -/
def parseIPv6Bool (s : Str) : Bool :=
  match s with
  | ':' :: ':' :: rest => if rest.isEmpty then true else v6Loop 9 rest 0 true
  | _ => v6Loop 9 s 0 false

/-- The dispatch loop of `netip.ParseAddr`: the first of `.`, `:`, `%`
decides the parser (`%` with no address before it fails). -/
def ipDispatch : Str → Option Char
  | [] => none
  | c :: rest =>
    if c = '.' ∨ c = ':' ∨ c = '%' then some c else ipDispatch rest

/-- Model of `isIP` (Go `net.ParseIP(s) != nil`): `net.ParseIP` rejects any
zone suffix, so a `%` anywhere fails. -/
def isIP (ipString : Str) : Bool :=
  match ipDispatch ipString with
  | some '.' => parseIPv4Bool ipString
  | some ':' =>
    if ipString.contains '%' then false else parseIPv6Bool ipString
  | _ => false

/-- A `\d{1,3}` run of the `IP_PORT_PATTERN` regular expression. -/
def isOctetRun (s : Str) : Bool :=
  decide (1 ≤ s.length ∧ s.length ≤ 3) && s.all Char.isDigit

/-- The `\d{1,3}(\.\d{1,3}){3}` part of `IP_PORT_PATTERN`: splitting at the
dots yields exactly four digit runs of one to three digits. -/
def isDottedQuadShape (s : Str) : Bool :=
  match splitSep '.' s with
  | [a, b, c, d] => isOctetRun a && isOctetRun b && isOctetRun c && isOctetRun d
  | _ => false

/-- Model of `extractIPPort`: semantics of the anchored pattern
`^(\d{1,3}\.\d{1,3}\.\d{1,3}\.\d{1,3}):(\d+)$`.  Neither capture group can
contain a colon, so a string matches exactly when it has a single colon,
a dotted quad of digit runs before it and at least one digit after it; the
two groups are then uniquely determined. -/
def extractIPPort (ipPort : Str) : Option (Str × Str) :=
  match splitSep ':' ipPort with
  | [ip, port] =>
    if isDottedQuadShape ip && !port.isEmpty && port.all Char.isDigit then
      some (ip, port)
    else none
  | _ => none

/-! ## `Process` (`Enrich`) and C2, C3 -/

/-- Modelled from the spec: the attribute key `aws.remote.service` — the
constant `AttributeRemoteService` lives in the appsignals common package,
which is not among the sources here; the spec fixes its literal value. -/
def AttributeRemoteService : Str := ("aws.remote.service").toList

/-- Modelled from the spec: the attribute key `aws.remote.namespace`
(constant `AttributeRemoteNamespace` of the appsignals common package). -/
def AttributeRemoteNamespace : Str := ("aws.remote.namespace").toList

/-- Model of `eksResolver.Process` (`Enrich`).  The attribute bag is the
string-valued `pcommon.Map`; the result pairs the updated bag with the
returned error, which is always `none`.  The `ipStr` flow of the source is
inlined: when the value is `IP:port`-shaped the full value is resolved
first, then the bare IP; a bare-IP value is resolved directly; a resolution
failure on a detected IP overwrites the service attribute with the
sentinel. -/
def Process (e : ResolverState) (attributes : List (Str × Str)) :
    List (Str × Str) × Option Str :=
  match mlookup attributes AttributeRemoteService with
  | none => (attributes, none)
  | some valueStr =>
    match extractIPPort valueStr with
    | some (ip, _port) =>
      match GetWorkloadAndNamespaceByIP e valueStr with
      | Except.ok (workload, namespace') =>
        (mstore (mstore attributes AttributeRemoteService workload)
          AttributeRemoteNamespace namespace', none)
      | Except.error _ =>
        match GetWorkloadAndNamespaceByIP e ip with
        | Except.ok (workload, namespace') =>
          (mstore (mstore attributes AttributeRemoteService workload)
            AttributeRemoteNamespace namespace', none)
        | Except.error _ =>
          (mstore attributes AttributeRemoteService
            (("UnknownRemoteService").toList), none)
    | none =>
      if isIP valueStr then
        match GetWorkloadAndNamespaceByIP e valueStr with
        | Except.ok (workload, namespace') =>
          (mstore (mstore attributes AttributeRemoteService workload)
            AttributeRemoteNamespace namespace', none)
        | Except.error _ =>
          (mstore attributes AttributeRemoteService
            (("UnknownRemoteService").toList), none)
      else (attributes, none)

/-- C2: `Process` always reports success; an unresolvable bare IP (here
`10.9.9.9` against empty indexes) overwrites `aws.remote.service` with the
sentinel `UnknownRemoteService` and leaves `aws.remote.namespace` unset; a
value that is neither `IP:port`-shaped nor a parseable IP leaves the
attribute bag untouched. -/
theorem Process_spec :
    (∀ (e : ResolverState) (attrs : List (Str × Str)),
      (Process e attrs).2 = none) ∧
    (∀ attrs : List (Str × Str),
      mlookup attrs AttributeRemoteService = some (("10.9.9.9").toList) →
      (Process emptyResolverState attrs).1
          = mstore attrs AttributeRemoteService
              (("UnknownRemoteService").toList) ∧
      mlookup (Process emptyResolverState attrs).1 AttributeRemoteNamespace
          = mlookup attrs AttributeRemoteNamespace) ∧
    (∀ (e : ResolverState) (attrs : List (Str × Str)) (v : Str),
      mlookup attrs AttributeRemoteService = some v →
      extractIPPort v = none → isIP v = false →
      (Process e attrs).1 = attrs) := by
  refine ⟨?_, ?_, ?_⟩
  · intro e attrs
    rcases h1 : mlookup attrs AttributeRemoteService with _ | v
    · simp [Process, h1]
    · rcases h2 : extractIPPort v with _ | ⟨ip, port⟩
      · by_cases hip : isIP v = true
        · rcases h3 : GetWorkloadAndNamespaceByIP e v with msg | ⟨w, ns⟩
          · simp [Process, h1, h2, hip, h3]
          · simp [Process, h1, h2, hip, h3]
        · have hip' : isIP v = false := by
            cases hb : isIP v with
            | true => exact absurd hb hip
            | false => rfl
          simp [Process, h1, h2, hip']
      · rcases h3 : GetWorkloadAndNamespaceByIP e v with msg | ⟨w, ns⟩
        · rcases h4 : GetWorkloadAndNamespaceByIP e ip with msg2 | ⟨w2, ns2⟩
          · simp [Process, h1, h2, h3, h4]
          · simp [Process, h1, h2, h3, h4]
        · simp [Process, h1, h2, h3]
  · intro attrs hlk
    have hfirst : (Process emptyResolverState attrs).1
        = mstore attrs AttributeRemoteService
            (("UnknownRemoteService").toList) := by
      simp only [Process, hlk]
      rfl
    refine ⟨hfirst, ?_⟩
    rw [hfirst, mlookup_mstore_ne _ _ _ _ (by decide)]
  · intro e attrs v hlk hx hip
    simp [Process, hlk, hx, hip]

/-- Closed instance of the C2 theorem: the single-attribute bag holding
`10.9.9.9`, and an untouched non-IP value. -/
theorem Process_spec_witness :
    (Process emptyResolverState
        [(AttributeRemoteService, ("10.9.9.9").toList)]).1
      = mstore [(AttributeRemoteService, ("10.9.9.9").toList)]
          AttributeRemoteService (("UnknownRemoteService").toList) ∧
    (Process emptyResolverState
        [(AttributeRemoteService, ("payment-service").toList)]).1
      = [(AttributeRemoteService, ("payment-service").toList)] := by
  constructor
  · exact (Process_spec.2.1
      [(AttributeRemoteService, ("10.9.9.9").toList)] (by decide)).1
  · exact Process_spec.2.2 emptyResolverState
      [(AttributeRemoteService, ("payment-service").toList)]
      (("payment-service").toList) (by decide) (by decide) (by decide)

/-- C3: when the `aws.remote.service` value matches the `IP:port` shape, the
full value is resolved first and, only on a miss, the bare IP; a bare IP
value accepted by standard parsing is resolved directly; on the attempt that
succeeds, the service attribute is overwritten with the workload and the
namespace attribute is set. -/
theorem Process_ipport_spec :
    (∀ (e : ResolverState) (attrs : List (Str × Str)) (v ip port : Str),
      mlookup attrs AttributeRemoteService = some v →
      extractIPPort v = some (ip, port) →
      (∀ w ns, GetWorkloadAndNamespaceByIP e v = Except.ok (w, ns) →
        (Process e attrs).1
          = mstore (mstore attrs AttributeRemoteService w)
              AttributeRemoteNamespace ns) ∧
      (∀ msg w ns, GetWorkloadAndNamespaceByIP e v = Except.error msg →
        GetWorkloadAndNamespaceByIP e ip = Except.ok (w, ns) →
        (Process e attrs).1
          = mstore (mstore attrs AttributeRemoteService w)
              AttributeRemoteNamespace ns)) ∧
    (∀ (e : ResolverState) (attrs : List (Str × Str)) (v : Str),
      mlookup attrs AttributeRemoteService = some v →
      extractIPPort v = none → isIP v = true →
      ∀ w ns, GetWorkloadAndNamespaceByIP e v = Except.ok (w, ns) →
        (Process e attrs).1
          = mstore (mstore attrs AttributeRemoteService w)
              AttributeRemoteNamespace ns) := by
  constructor
  · intro e attrs v ip port hlk hx
    constructor
    · intro w ns hok
      simp [Process, hlk, hx, hok]
    · intro msg w ns herr hok
      simp [Process, hlk, hx, herr, hok]
  · intro e attrs v hlk hx hip w ns hok
    simp [Process, hlk, hx, hip, hok]

/-- The C3 witness state: the endpoint `10.2.0.1:8080` is known via the pod
chain only under its full `HostIP:Port` form. -/
def c3state : ResolverState :=
  { ipToPod := [((("10.2.0.1:8080").toList), (("pod-y").toList))]
    podToWorkloadAndNamespace :=
      [((("pod-y").toList), attachNamespace (("cart").toList) (("shop").toList))]
    ipToServiceAndNamespace := []
    serviceToWorkload := [] }

/-- Closed instance of the C3 theorem: the `IP:port`-shaped value resolves
on the full form and rewrites both attributes. -/
theorem Process_ipport_spec_witness :
    (Process c3state
        [(AttributeRemoteService, ("10.2.0.1:8080").toList)]).1
      = mstore
          (mstore [(AttributeRemoteService, ("10.2.0.1:8080").toList)]
            AttributeRemoteService (("cart").toList))
          AttributeRemoteNamespace (("shop").toList) :=
  ((Process_ipport_spec.1 c3state
      [(AttributeRemoteService, ("10.2.0.1:8080").toList)]
      (("10.2.0.1:8080").toList) (("10.2.0.1").toList) (("8080").toList)
      (by decide) (by decide)).1
    (("cart").toList) (("shop").toList) (by rfl))

end EKS
